import Mathlib

/-!
Shallow embedding of the RusTTD simulation engine (src/world.rs, src/economy.rs,
src/vehicle.rs, src/save.rs) together with proofs about the specified
properties.  Conventions used throughout:

* Rust `u32`/`usize`/`u8` fields are modelled as `Nat`; arithmetic stays far
  from the wrap-around range in every property considered, and Rust's
  `saturating_sub` coincides with truncated `Nat` subtraction.
* Rust `f32` values (prices, multipliers, growth rates, movement progress) are
  modelled as exact rationals `ℚ`; `x as u32` on a nonnegative float is
  `Int.toNat ⌊x⌋`.
* `HashMap<CargoType, u32>` maps are modelled as total functions
  `CargoType → ℕ` (missing key = 0), matching the `entry().or_insert(0)` /
  `get().unwrap_or(&0)` access patterns of the source.  Where the source
  iterates over such a map, the iteration order is either irrelevant
  (pointwise updates) or passed in explicitly as a `List CargoType` parameter.
* The `Vec<Vec<Tile>>` grid is modelled as a total function `ℕ → ℕ → Tile`
  plus `width`/`height` bounds, with every access going through the same
  bounds checks as `Vec::get` / `Vec::get_mut`.
* Functions that can panic in the source are modelled in `Option`, with
  `none` marking the panic.
-/

namespace RusTTD

/-- `CargoType` from src/world.rs. -/
inductive CargoType where
  | Passengers | Mail | Coal | IronOre | Steel | Wood | Oil | Goods | Food
  deriving DecidableEq, Repr

/-- Canonical enumeration of every cargo kind (the key set that every cargo
`HashMap` in the engine draws from). -/
def cargoKinds : List CargoType :=
  [.Passengers, .Mail, .Coal, .IronOre, .Steel, .Wood, .Oil, .Goods, .Food]

/-- Sum of the values of a cargo map: `map.values().sum()`. -/
def cargoSum (m : CargoType → ℕ) : ℕ := (cargoKinds.map m).sum

/-- Single-key map write, `map.insert(k, v)` / `*map.entry(k) = v`. -/
def pointUpdate {β : Type} (m : CargoType → β) (k : CargoType) (v : β) :
    CargoType → β :=
  fun c => if c = k then v else m c

/-- `TerrainType` from src/world.rs. -/
inductive TerrainType where
  | Grass | Water | Mountain | Desert | Forest
  deriving DecidableEq, Repr

/-- `Direction` from src/world.rs. -/
inductive Direction where
  | North | South | East | West
  deriving DecidableEq, Repr

/-- `TrackType` from src/world.rs. -/
inductive TrackType where
  | Straight (horizontal : Bool)
  | Curve (from_dir to_dir : Direction)
  | Junction
  deriving DecidableEq, Repr

/-- `IndustryType` from src/world.rs. -/
inductive IndustryType where
  | CoalMine | IronOreMine | SteelMill | Factory | Farm | Sawmill | OilRig
  | Refinery
  deriving DecidableEq, Repr

/-- `StationType` from src/world.rs. -/
inductive StationType where
  | Train | Road | Airport | Harbor
  deriving DecidableEq, Repr

/-- `Town` from src/world.rs (cargo maps as total functions). -/
structure Town where
  name : String
  population : ℕ
  growth_rate : ℚ
  cargo_demand : CargoType → ℕ
  cargo_supply : CargoType → ℕ

/-- `Industry` from src/world.rs. -/
structure Industry where
  industry_type : IndustryType
  production_rate : ℕ
  cargo_input : List CargoType
  cargo_output : List CargoType
  stockpile : CargoType → ℕ

/-- `Station` from src/world.rs. -/
structure Station where
  name : String
  station_type : StationType
  cargo_waiting : CargoType → ℕ
  connections : List (ℕ × ℕ)

/-- `TileContent` from src/world.rs. -/
inductive TileContent where
  | Empty
  | Town (t : Town)
  | Industry (i : Industry)
  | Station (s : Station)
  | Track (tt : TrackType)
  | Road

/-- `Tile` from src/world.rs. -/
structure Tile where
  terrain : TerrainType
  content : TileContent
  height : ℕ

/-- `World` from src/world.rs; the `Vec<Vec<Tile>>` grid is a total function
guarded by the `width`/`height` bounds on every access. -/
structure World where
  width : ℕ
  height : ℕ
  tiles : ℕ → ℕ → Tile
  towns : List (ℕ × ℕ)
  industries : List (ℕ × ℕ)
  stations : List (ℕ × ℕ)

/-- `World::get_tile`: `None` iff out of bounds. -/
def World.get_tile (w : World) (x y : ℕ) : Option Tile :=
  if x < w.width ∧ y < w.height then some (w.tiles x y) else none

/-- The `tiles.get_mut(y).and_then(|row| row.get_mut(x))` write pattern:
in-place modification of one tile, a no-op out of bounds. -/
def World.modifyTile (w : World) (x y : ℕ) (f : Tile → Tile) : World :=
  if x < w.width ∧ y < w.height then
    { w with tiles := fun a b => if a = x ∧ b = y then f (w.tiles x y) else w.tiles a b }
  else w

@[simp] theorem World.modifyTile_width (w : World) (x y : ℕ) (f : Tile → Tile) :
    (w.modifyTile x y f).width = w.width := by
  unfold World.modifyTile; split <;> rfl

@[simp] theorem World.modifyTile_height (w : World) (x y : ℕ) (f : Tile → Tile) :
    (w.modifyTile x y f).height = w.height := by
  unfold World.modifyTile; split <;> rfl

/-- The `x as u32` cast of a nonnegative Rust `f32` (saturating at 0 below). -/
def ratToU32 (q : ℚ) : ℕ := (⌊q⌋).toNat

/-- The per-town body of `World::update` (src/world.rs lines 146-161):
population growth then demand/supply generation from the new population. -/
def townTickContent (t : Town) : Town :=
  let pop := ratToU32 ((t.population : ℚ) * (1 + t.growth_rate / 100))
  let base_demand := pop / 100
  let demand := t.cargo_demand
  let demand := pointUpdate demand .Food (demand .Food + base_demand)
  let demand := pointUpdate demand .Goods (demand .Goods + base_demand / 2)
  let demand := pointUpdate demand .Mail (demand .Mail + base_demand / 4)
  let supply := pointUpdate t.cargo_supply .Passengers
    (t.cargo_supply .Passengers + pop / 200)
  { t with population := pop, cargo_demand := demand, cargo_supply := supply }

/-- The per-tile effect of the town loop of `World::update`. -/
def growTile (tile : Tile) : Tile :=
  match tile.content with
  | .Town t => { tile with content := .Town (townTickContent t) }
  | _ => tile

/-- The town loop of `World::update`. -/
def growthPhase (w : World) : World :=
  w.towns.foldl (fun w1 p => w1.modifyTile p.1 p.2 growTile) w

/-- `World::update_industry_production_static`: industries with no inputs add
`production_rate` of every output kind to the stockpile. -/
def industryProduction (i : Industry) : Industry :=
  if i.cargo_input = [] then
    { i with stockpile := fun ct =>
        i.stockpile ct + i.cargo_output.count ct * i.production_rate }
  else i

/-- The per-tile effect of the industry loop of `World::update`. -/
def prodTile (tile : Tile) : Tile :=
  match tile.content with
  | .Industry i => { tile with content := .Industry (industryProduction i) }
  | _ => tile

/-- The industry loop of `World::update`. -/
def industryPhase (w : World) : World :=
  w.industries.foldl (fun w1 p => w1.modifyTile p.1 p.2 prodTile) w

/-- The inclusive coordinate range `a..=b` as a list. -/
def closedRange (a b : ℕ) : List ℕ := (List.range (b + 1 - a)).map (a + ·)

/-- `cargo_to_transfer` of `World::transfer_cargo_to_stations`:
`(amount / 4).max(1)` for every stockpiled kind with a positive amount. -/
def transferAmt (stock : CargoType → ℕ) (ct : CargoType) : ℕ :=
  if 0 < stock ct then max (stock ct / 4) 1 else 0

/-- `industry_x.saturating_sub(3)..=(industry_x + 3).min(self.width - 1)`. -/
def industryCols (w : World) (ix : ℕ) : List ℕ :=
  closedRange (ix - 3) (min (ix + 3) (w.width - 1))

/-- `industry_y.saturating_sub(3)..=(industry_y + 3).min(self.height - 1)`. -/
def industryRows (w : World) (iy : ℕ) : List ℕ :=
  closedRange (iy - 3) (min (iy + 3) (w.height - 1))

/-- Deposit `tr` into a station tile's `cargo_waiting`; other tiles untouched. -/
def addWaiting (tr : CargoType → ℕ) (tile : Tile) : Tile :=
  match tile.content with
  | .Station s =>
      { tile with content := .Station { s with
          cargo_waiting := fun ct => s.cargo_waiting ct + tr ct } }
  | _ => tile

/-- The nested station loop of `World::transfer_cargo_to_stations`
(outer `station_x`, inner `station_y`). -/
def stationScan (w : World) (tr : CargoType → ℕ) (cols rows : List ℕ) : World :=
  cols.foldl (fun w1 sx =>
    rows.foldl (fun w2 sy => w2.modifyTile sx sy (addWaiting tr)) w1) w

/-- Remove the transferred amounts from an industry tile's stockpile
(`saturating_sub`). -/
def removeStock (tr : CargoType → ℕ) (tile : Tile) : Tile :=
  match tile.content with
  | .Industry i =>
      { tile with content := .Industry { i with
          stockpile := fun ct => i.stockpile ct - tr ct } }
  | _ => tile

/-- Per-industry body of `World::transfer_cargo_to_stations` (src/world.rs
lines 288-327): compute the transfer amounts, push them to every station in
the clamped radius-3 window, then subtract them from the stockpile once. -/
def transferFromIndustry (w : World) (p : ℕ × ℕ) : World :=
  let tr : CargoType → ℕ :=
    match w.get_tile p.1 p.2 with
    | some tile =>
        match tile.content with
        | .Industry i => transferAmt i.stockpile
        | _ => fun _ => 0
    | none => fun _ => 0
  let w1 := stationScan w tr (industryCols w p.1) (industryRows w p.2)
  w1.modifyTile p.1 p.2 (removeStock tr)

/-- `World::transfer_cargo_to_stations`. -/
def World.transfer_cargo_to_stations (w : World) : World :=
  w.industries.foldl transferFromIndustry w

/-- `town_x.saturating_sub(2)..=(town_x + 2).min(self.width - 1)`. -/
def townCols (w : World) (tx : ℕ) : List ℕ :=
  closedRange (tx - 2) (min (tx + 2) (w.width - 1))

/-- `town_y.saturating_sub(2)..=(town_y + 2).min(self.height - 1)`. -/
def townRows (w : World) (ty : ℕ) : List ℕ :=
  closedRange (ty - 2) (min (ty + 2) (w.height - 1))

/-- Whether the optional tile holds a station. -/
def isStationTile : Option Tile → Bool
  | some tile =>
      match tile.content with
      | .Station _ => true
      | _ => false
  | none => false

/-- Deposit `p` passengers into a station tile's `cargo_waiting`. -/
def addPassengersTile (p : ℕ) (tile : Tile) : Tile :=
  match tile.content with
  | .Station s =>
      { tile with content := .Station { s with
          cargo_waiting := pointUpdate s.cargo_waiting .Passengers
              (s.cargo_waiting .Passengers + p) } }
  | _ => tile

/-- Subtract the transferred passengers from a town tile's supply
(`saturating_sub`). -/
def supplyDecTile (ptt : ℕ) (tile : Tile) : Tile :=
  match tile.content with
  | .Town t =>
      { tile with content := .Town { t with
          cargo_supply := pointUpdate t.cargo_supply .Passengers
              (t.cargo_supply .Passengers - ptt) } }
  | _ => tile

/-- `passengers_to_transfer` of `World::transfer_passengers_to_stations`:
half the town's passenger supply. -/
def passengersToTransfer (w : World) (pos : ℕ × ℕ) : ℕ :=
  match w.get_tile pos.1 pos.2 with
  | some tile =>
      match tile.content with
      | .Town t => t.cargo_supply .Passengers / 2
      | _ => 0
  | none => 0

/-- Per-town body of `World::transfer_passengers_to_stations` (src/world.rs
lines 334-367).  The `break` in the source exits only the inner `station_y`
loop, so each column of the window delivers to its first station. -/
def transferFromTown (w : World) (pos : ℕ × ℕ) : World :=
  let ptt : ℕ := passengersToTransfer w pos
  if 0 < ptt then
    let w1 := (townCols w pos.1).foldl (fun w1 sx =>
      match (townRows w pos.2).find? (fun sy => isStationTile (w1.get_tile sx sy)) with
      | some sy => w1.modifyTile sx sy (addPassengersTile ptt)
      | none => w1) w
    w1.modifyTile pos.1 pos.2 (supplyDecTile ptt)
  else w

/-- `World::transfer_passengers_to_stations`. -/
def World.transfer_passengers_to_stations (w : World) : World :=
  w.towns.foldl transferFromTown w

/-- `World::update` (src/world.rs lines 143-179): town growth and cargo
generation, industry production, then the two diffusion passes. -/
def World.update (w : World) : World :=
  World.transfer_passengers_to_stations
    (World.transfer_cargo_to_stations (industryPhase (growthPhase w)))

/-- Population of the town at a coordinate, if any. -/
def populationAt (w : World) (x y : ℕ) : Option ℕ :=
  match w.get_tile x y with
  | some tile =>
      match tile.content with
      | .Town t => some t.population
      | _ => none
  | none => none

/-- Passenger (or other) supply of the town at a coordinate, if any. -/
def supplyAt (w : World) (x y : ℕ) (ct : CargoType) : Option ℕ :=
  match w.get_tile x y with
  | some tile =>
      match tile.content with
      | .Town t => some (t.cargo_supply ct)
      | _ => none
  | none => none

/-- Demand entry of the town at a coordinate, if any. -/
def demandAt (w : World) (x y : ℕ) (ct : CargoType) : Option ℕ :=
  match w.get_tile x y with
  | some tile =>
      match tile.content with
      | .Town t => some (t.cargo_demand ct)
      | _ => none
  | none => none

/-- Stockpile entry of the industry at a coordinate, if any. -/
def stockpileAt (w : World) (x y : ℕ) (ct : CargoType) : Option ℕ :=
  match w.get_tile x y with
  | some tile =>
      match tile.content with
      | .Industry i => some (i.stockpile ct)
      | _ => none
  | none => none

/-- `cargo_waiting` entry of the station at a coordinate, if any. -/
def waitingAt (w : World) (x y : ℕ) (ct : CargoType) : Option ℕ :=
  match w.get_tile x y with
  | some tile =>
      match tile.content with
      | .Station s => some (s.cargo_waiting ct)
      | _ => none
  | none => none

/-- `SupplyDemand` from src/economy.rs. -/
structure SupplyDemand where
  supply : ℕ
  demand : ℕ
  price_multiplier : ℚ

/-- `EconomicState` from src/economy.rs. -/
inductive EconomicState where
  | Boom | Stable | Recession
  deriving DecidableEq, Repr

/-- `Economy` from src/economy.rs.  `cargo_prices` and `supply_demand` are
`HashMap`s initialised with every cargo kind and only ever overwritten, so
total functions model them exactly. -/
structure Economy where
  cargo_prices : CargoType → ℚ
  supply_demand : CargoType → SupplyDemand
  inflation_rate : ℚ
  economic_state : EconomicState
  month : ℕ

/-- `Economy::new` (src/economy.rs lines 27-59). -/
def Economy.new : Economy where
  cargo_prices := fun ct =>
    match ct with
    | .Passengers => 5 | .Mail => 8 | .Coal => 3 | .IronOre => 4 | .Steel => 12
    | .Wood => 6 | .Oil => 8 | .Goods => 15 | .Food => 7
  supply_demand := fun _ => { supply := 1000, demand := 1000, price_multiplier := 1 }
  inflation_rate := 1 / 50
  economic_state := .Stable
  month := 0

/-- The supply/demand ratio of `Economy::update_cargo_prices`: `demand/supply`
with `supply = 0` treated as ratio `2.0`. -/
def sdRatio (sd : SupplyDemand) : ℚ :=
  if 0 < sd.supply then (sd.demand : ℚ) / (sd.supply : ℚ) else 2

/-- The `match` clamp of `Economy::update_cargo_prices`. -/
def clampMult (x : ℚ) : ℚ :=
  if 3 / 2 < x then 3 / 2 else if x < 1 / 2 then 1 / 2 else x

/-- `Economy::update_cargo_prices` (src/economy.rs lines 129-148): store the
clamped multiplier and multiply the stored price by it, per cargo kind. -/
def Economy.update_cargo_prices (e : Economy) : Economy :=
  { e with
    supply_demand := fun ct =>
      { e.supply_demand ct with price_multiplier := clampMult (sdRatio (e.supply_demand ct)) }
    cargo_prices := fun ct =>
      e.cargo_prices ct * clampMult (sdRatio (e.supply_demand ct)) }

/-- `(x as f32 * r) as u32` on a `u32` and a nonnegative factor. -/
def scaleU32 (n : ℕ) (r : ℚ) : ℕ := ratToU32 ((n : ℚ) * r)

/-- `Economy::update_monthly_economics` (src/economy.rs lines 73-94):
inflate every stored price, then drift demand by the economic state. -/
def Economy.update_monthly_economics (e : Economy) : Economy :=
  let e1 := { e with cargo_prices := fun ct => e.cargo_prices ct * (1 + e.inflation_rate) }
  match e1.economic_state with
  | .Boom =>
      { e1 with supply_demand := fun ct =>
          { e1.supply_demand ct with demand := scaleU32 (e1.supply_demand ct).demand (11 / 10) } }
  | .Recession =>
      { e1 with supply_demand := fun ct =>
          { e1.supply_demand ct with demand := scaleU32 (e1.supply_demand ct).demand (9 / 10) } }
  | .Stable => e1

/-- `Economy::process_town_demand_supply` (src/economy.rs lines 163-173):
accumulate a town's contributions into the fresh demand/supply maps.
A map is `CargoType → Option ℕ`, `none` meaning the key is absent. -/
def process_town_demand_supply (t : Town)
    (acc : (CargoType → Option ℕ) × (CargoType → Option ℕ)) :
    (CargoType → Option ℕ) × (CargoType → Option ℕ) :=
  let population_factor : ℚ := max ((t.population : ℚ) / 1000) (1 / 10)
  let addO := fun (m : CargoType → Option ℕ) (k : CargoType) (v : ℕ) =>
    pointUpdate m k (some ((m k).getD 0 + v))
  let demand := acc.1
  let supply := acc.2
  let demand := addO demand .Passengers (ratToU32 (population_factor * 50))
  let demand := addO demand .Mail (ratToU32 (population_factor * 20))
  let demand := addO demand .Goods (ratToU32 (population_factor * 30))
  let demand := addO demand .Food (ratToU32 (population_factor * 25))
  let supply := addO supply .Passengers (ratToU32 (population_factor * 40))
  let supply := addO supply .Mail (ratToU32 (population_factor * 15))
  (demand, supply)

/-- `Economy::process_industry_supply` (src/economy.rs lines 175-179). -/
def process_industry_supply (i : Industry) (supply : CargoType → Option ℕ) :
    CargoType → Option ℕ :=
  i.cargo_output.foldl
    (fun m ct => pointUpdate m ct (some ((m ct).getD 0 + i.production_rate))) supply

/-- The grid scan of `Economy::update_supply_demand` (rows outer, columns
inner), producing the fresh demand and supply maps. -/
def collectSupplyDemand (w : World) :
    (CargoType → Option ℕ) × (CargoType → Option ℕ) :=
  (List.range w.height).foldl (fun acc y =>
    (List.range w.width).foldl (fun acc x =>
      match w.get_tile x y with
      | some tile =>
          match tile.content with
          | .Town t => process_town_demand_supply t acc
          | .Industry i => (acc.1, process_industry_supply i acc.2)
          | _ => acc
      | none => acc) acc) (fun _ => none, fun _ => none)

/-- `Economy::update_supply_demand` (src/economy.rs lines 96-127): overwrite
the stored supply and demand with the freshly collected totals (kinds absent
from the fresh maps keep their stored values). -/
def Economy.update_supply_demand (e : Economy) (w : World) : Economy :=
  let fresh := collectSupplyDemand w
  { e with supply_demand := fun ct =>
      let sd := e.supply_demand ct
      let sd := match fresh.2 ct with
        | some s => { sd with supply := s }
        | none => sd
      match fresh.1 ct with
      | some d => { sd with demand := d }
      | none => sd }

/-- `Economy::update_economic_state` (src/economy.rs lines 150-161) with the
`rng.gen_range(0..10)` draw passed in as `roll`. -/
def Economy.update_economic_state (e : Economy) (roll : ℕ) : Economy :=
  if e.month % 120 = 0 then
    { e with economic_state :=
        if roll ≤ 2 then .Boom else if roll ≤ 6 then .Stable else .Recession }
  else e

/-- `Economy::update` (src/economy.rs lines 61-71): one market tick. -/
def Economy.update (e : Economy) (w : World) (roll : ℕ) : Economy :=
  let e1 := { e with month := e.month + 1 }
  let e2 := if e1.month % 30 = 0 then e1.update_monthly_economics else e1
  let e3 := e2.update_supply_demand w
  let e4 := e3.update_cargo_prices
  e4.update_economic_state roll

/-- `TrainEngine` from src/vehicle.rs. -/
inductive TrainEngine where
  | Steam (power reliability : ℕ)
  | Diesel (power reliability : ℕ)
  | Electric (power reliability : ℕ)
  deriving DecidableEq, Repr

/-- `TrainCar` from src/vehicle.rs. -/
inductive TrainCar where
  | Passenger (capacity : ℕ)
  | Freight (capacity : ℕ) (cargo_type : Option CargoType)
  | Mail (capacity : ℕ)
  deriving DecidableEq, Repr

/-- `TruckType` from src/vehicle.rs. -/
inductive TruckType where
  | SmallTruck (capacity : ℕ)
  | LargeTruck (capacity : ℕ)
  | Bus (capacity : ℕ)
  deriving DecidableEq, Repr

/-- `ShipType` from src/vehicle.rs. -/
inductive ShipType where
  | CargoShip (capacity : ℕ)
  | PassengerShip (capacity : ℕ)
  deriving DecidableEq, Repr

/-- `PlaneType` from src/vehicle.rs. -/
inductive PlaneType where
  | SmallPlane (capacity range : ℕ)
  | LargePlane (capacity range : ℕ)
  deriving DecidableEq, Repr

/-- `VehicleType` from src/vehicle.rs. -/
inductive VehicleType where
  | Train (engine : TrainEngine) (cars : List TrainCar)
  | Road (truck_type : TruckType)
  | Ship (ship_type : ShipType)
  | Aircraft (plane_type : PlaneType)
  deriving DecidableEq, Repr

/-- `VehicleState` from src/vehicle.rs; `progress` is an `f32` modelled
as `ℚ`. -/
inductive VehicleState where
  | Idle
  | Moving (from_ to_ : ℕ × ℕ) (progress : ℚ)
  | Loading
  | Unloading
  | Broken
  deriving DecidableEq, Repr

/-- `Vehicle` from src/vehicle.rs. -/
structure Vehicle where
  id : ℕ
  vehicle_type : VehicleType
  x : ℕ
  y : ℕ
  state : VehicleState
  cargo : CargoType → ℕ
  route : List (ℕ × ℕ)
  route_index : ℕ
  current_path : List (ℕ × ℕ)
  path_index : ℕ
  age : ℕ
  reliability : ℕ
  speed : ℕ
  last_service : ℕ
  profit : ℤ
  on_time_deliveries : ℕ
  total_deliveries : ℕ

/-- `Vehicle::get_capacity` (src/vehicle.rs lines 169-192). -/
def Vehicle.get_capacity (v : Vehicle) : ℕ :=
  match v.vehicle_type with
  | .Train _ cars =>
      (cars.map (fun car =>
        match car with
        | .Passenger capacity => capacity
        | .Freight capacity _ => capacity
        | .Mail capacity => capacity)).sum
  | .Road truck_type =>
      match truck_type with
      | .SmallTruck capacity => capacity
      | .LargeTruck capacity => capacity
      | .Bus capacity => capacity
  | .Ship ship_type =>
      match ship_type with
      | .CargoShip capacity => capacity
      | .PassengerShip capacity => capacity
  | .Aircraft plane_type =>
      match plane_type with
      | .SmallPlane capacity _ => capacity
      | .LargePlane capacity _ => capacity

/-- `Vehicle::get_vehicle_stats` (src/vehicle.rs lines 267-285), returning
`(speed, reliability)`. -/
def get_vehicle_stats (vehicle_type : VehicleType) : ℕ × ℕ :=
  match vehicle_type with
  | .Train engine _ =>
      match engine with
      | .Steam _ reliability => (60, reliability)
      | .Diesel _ reliability => (80, reliability)
      | .Electric _ reliability => (100, reliability)
  | .Road truck_type =>
      match truck_type with
      | .SmallTruck _ => (90, 85)
      | .LargeTruck _ => (70, 80)
      | .Bus _ => (85, 88)
  | .Ship _ => (40, 90)
  | .Aircraft plane_type =>
      match plane_type with
      | .SmallPlane _ _ => (300, 75)
      | .LargePlane _ _ => (250, 85)

/-- `Vehicle::new` (src/vehicle.rs lines 79-101). -/
def Vehicle.new (id : ℕ) (vehicle_type : VehicleType) (x y : ℕ) : Vehicle :=
  let stats := get_vehicle_stats vehicle_type
  { id := id
    vehicle_type := vehicle_type
    x := x
    y := y
    state := .Idle
    cargo := fun _ => 0
    route := []
    route_index := 0
    current_path := []
    path_index := 0
    age := 0
    reliability := stats.2
    speed := stats.1
    last_service := 0
    profit := 0
    on_time_deliveries := 0
    total_deliveries := 0 }

/-- `Vehicle::assign_route` (src/vehicle.rs lines 164-167). -/
def Vehicle.assign_route (v : Vehicle) (stations : List (ℕ × ℕ)) : Vehicle :=
  { v with route := stations, route_index := 0 }

/-- `Vehicle::get_train_neighbors` (src/vehicle.rs lines 508-527): the
4-neighbours whose tile content is Track or Station. -/
def trainNeighbors (w : World) (p : ℕ × ℕ) : List (ℕ × ℕ) :=
  (deltas4.filterMap (fun d =>
    match checkedAdd p.1 d.1, checkedAdd p.2 d.2 with
    | some nx, some ny =>
        match w.get_tile nx ny with
        | some tile =>
            match tile.content with
            | .Track _ => some (nx, ny)
            | .Station _ => some (nx, ny)
            | _ => none
        | none => none
    | _, _ => none))
where
  deltas4 : List (ℤ × ℤ) := [(-1, 0), (1, 0), (0, -1), (0, 1)]
  checkedAdd (x : ℕ) (d : ℤ) : Option ℕ :=
    if 0 ≤ (x : ℤ) + d then some ((x : ℤ) + d).toNat else none

/-- `Vehicle::get_road_neighbors` (src/vehicle.rs lines 529-551): the
4-neighbours whose content is Road, Station or Empty and whose terrain is
neither Water nor Mountain. -/
def roadNeighbors (w : World) (p : ℕ × ℕ) : List (ℕ × ℕ) :=
  (trainNeighbors.deltas4.filterMap (fun d =>
    match trainNeighbors.checkedAdd p.1 d.1, trainNeighbors.checkedAdd p.2 d.2 with
    | some nx, some ny =>
        match w.get_tile nx ny with
        | some tile =>
            match tile.content with
            | .Road => passable tile nx ny
            | .Station _ => passable tile nx ny
            | .Empty => passable tile nx ny
            | _ => none
        | none => none
    | _, _ => none))
where
  passable (tile : Tile) (nx ny : ℕ) : Option (ℕ × ℕ) :=
    match tile.terrain with
    | .Water => none
    | .Mountain => none
    | _ => some (nx, ny)

/-- `u32::MAX`, the default g-score of an unseen node. -/
def U32MAX : ℕ := 4294967295

/-- Path reconstruction of `Vehicle::find_train_path` /
`Vehicle::find_road_path`: walk `came_from` from the goal back to the start,
then reverse.  The source's `while` loop terminates because `came_from` is
acyclic; here a fuel argument bounds it (no theorem depends on the
reconstructed path's contents). -/
def reconstructPath (cameFrom : ℕ × ℕ → Option (ℕ × ℕ)) (start : ℕ × ℕ) :
    ℕ → ℕ × ℕ → List (ℕ × ℕ) → List (ℕ × ℕ)
  | 0, _, acc => (acc ++ [start]).reverse
  | fuel + 1, cur, acc =>
      match cameFrom cur with
      | some prev => reconstructPath cameFrom start fuel prev (acc ++ [cur])
      | none => (acc ++ [start]).reverse

/-- The mutable search state of `Vehicle::find_train_path`. -/
structure BfsState where
  openSet : List (ℕ × ℕ)
  cameFrom : ℕ × ℕ → Option (ℕ × ℕ)
  gScore : ℕ × ℕ → Option ℕ

/-- The neighbour loop of `Vehicle::find_train_path` (src/vehicle.rs lines
446-462). -/
def processNeighbors (current : ℕ × ℕ) (ns : List (ℕ × ℕ))
    (visited : List (ℕ × ℕ)) (st : BfsState) : BfsState :=
  ns.foldl (fun st n =>
    if n ∈ visited then st
    else
      let tentative := (st.gScore current).getD U32MAX + 1
      if tentative < (st.gScore n).getD U32MAX then
        { openSet := if n ∈ st.openSet then st.openSet else st.openSet ++ [n]
          cameFrom := fun p => if p = n then some current else st.cameFrom p
          gScore := fun p => if p = n then some tentative else st.gScore p }
      else st) st

/-- The `while let Some(current) = open_set.pop_front()` loop of
`Vehicle::find_train_path`, with explicit fuel (the source loop terminates on
the finite grid; fuel exhaustion is modelled as `none`). -/
def bfsLoop (w : World) (start goal : ℕ × ℕ) :
    ℕ → BfsState → List (ℕ × ℕ) → Option (List (ℕ × ℕ))
  | 0, _, _ => none
  | fuel + 1, st, visited =>
      match st.openSet with
      | [] => none
      | current :: rest =>
          if current = goal then
            some (reconstructPath st.cameFrom start (fuel + 1) current [])
          else if current ∈ visited then
            bfsLoop w start goal fuel { st with openSet := rest } visited
          else
            let visited' := visited ++ [current]
            let st' := processNeighbors current (trainNeighbors w current) visited'
              { st with openSet := rest }
            bfsLoop w start goal fuel st' visited'

/-- `Vehicle::find_train_path` (src/vehicle.rs lines 415-466). -/
def find_train_path (fuel : ℕ) (w : World) (start goal : ℕ × ℕ) :
    Option (List (ℕ × ℕ)) :=
  bfsLoop w start goal fuel
    { openSet := [start]
      cameFrom := fun _ => none
      gScore := fun p => if p = start then some 0 else none } []

/-- The loop of `Vehicle::find_road_path` (src/vehicle.rs lines 468-506). -/
def roadLoop (w : World) (start goal : ℕ × ℕ) :
    ℕ → List (ℕ × ℕ) → (ℕ × ℕ → Option (ℕ × ℕ)) → List (ℕ × ℕ) →
    Option (List (ℕ × ℕ))
  | 0, _, _, _ => none
  | fuel + 1, openSet, cameFrom, visited =>
      match openSet with
      | [] => none
      | current :: rest =>
          if current = goal then
            some (reconstructPath cameFrom start (fuel + 1) current [])
          else if current ∈ visited then
            roadLoop w start goal fuel rest cameFrom visited
          else
            let visited' := visited ++ [current]
            let step := (roadNeighbors w current).foldl
              (fun (acc : List (ℕ × ℕ) × (ℕ × ℕ → Option (ℕ × ℕ))) n =>
                if n ∉ visited' ∧ (acc.2 n) = none then
                  (acc.1 ++ [n], fun p => if p = n then some current else acc.2 p)
                else acc) (rest, cameFrom)
            roadLoop w start goal fuel step.1 step.2 visited'

/-- `Vehicle::find_road_path`. -/
def find_road_path (fuel : ℕ) (w : World) (start goal : ℕ × ℕ) :
    Option (List (ℕ × ℕ)) :=
  roadLoop w start goal fuel [start] (fun _ => none) []

/-- `Vehicle::find_path_to_station` (src/vehicle.rs lines 404-413): trains and
road vehicles search the grid; ships and aircraft use the degenerate direct
path. -/
def Vehicle.find_path_to_station (fuel : ℕ) (v : Vehicle) (w : World)
    (target : ℕ × ℕ) : Option (List (ℕ × ℕ)) :=
  match v.vehicle_type with
  | .Train _ _ => find_train_path fuel w (v.x, v.y) target
  | .Road _ => find_road_path fuel w (v.x, v.y) target
  | _ => some [target]

/-- `Vehicle::start_moving_to_next_station` (src/vehicle.rs lines 287-310). -/
def Vehicle.start_moving_to_next_station (fuel : ℕ) (v : Vehicle) (w : World) :
    Vehicle :=
  match v.route.get? v.route_index with
  | none => v
  | some next_station =>
      match v.find_path_to_station fuel w next_station with
      | some path =>
          if 1 < path.length then
            { v with current_path := path
                     path_index := 1
                     state := .Moving (v.x, v.y) (path.getD 1 (0, 0)) 0 }
          else { v with state := .Loading }
      | none => { v with state := .Idle }

/-- The cargo-selection loop of `Vehicle::load_cargo_at_station`
(src/vehicle.rs lines 326-333), iterating the station's waiting map in the
order `order`; returns the new hold, the remaining capacity and the
`cargo_to_remove` list. -/
def loadLoop (stationWaiting : CargoType → ℕ) :
    List CargoType → (CargoType → ℕ) → ℕ →
    (CargoType → ℕ) × ℕ × List (CargoType × ℕ)
  | [], cargo, remaining => (cargo, remaining, [])
  | ct :: rest, cargo, remaining =>
      let amount := stationWaiting ct
      if 0 < amount ∧ 0 < remaining then
        let to_load := min amount remaining
        let r := loadLoop stationWaiting rest
          (pointUpdate cargo ct (cargo ct + to_load)) (remaining - to_load)
        (r.1, r.2.1, (ct, to_load) :: r.2.2)
      else loadLoop stationWaiting rest cargo remaining

/-- The removal loop of `Vehicle::load_cargo_at_station` (src/vehicle.rs
lines 336-343): `saturating_sub` each loaded amount from the waiting map
(an entry reaching 0 is removed, i.e. becomes the default 0). -/
def applyRemovals (waiting : CargoType → ℕ) (rs : List (CargoType × ℕ)) :
    CargoType → ℕ :=
  rs.foldl (fun m r => pointUpdate m r.1 (m r.1 - r.2)) waiting

/-- `Vehicle::load_cargo_at_station` (src/vehicle.rs lines 312-346). -/
def Vehicle.load_cargo_at_station (order : List CargoType) (v : Vehicle)
    (w : World) : Vehicle × World :=
  let available_capacity := v.get_capacity - cargoSum v.cargo
  if available_capacity = 0 then (v, w)
  else
    match w.get_tile v.x v.y with
    | some tile =>
        match tile.content with
        | .Station s =>
            let r := loadLoop s.cargo_waiting order v.cargo available_capacity
            ({ v with cargo := r.1 },
             w.modifyTile v.x v.y (fun t =>
               match t.content with
               | .Station s2 => { t with content := .Station { s2 with
                   cargo_waiting := applyRemovals s2.cargo_waiting r.2.2 } }
               | _ => t))
        | _ => (v, w)
    | none => (v, w)

/-- The `-2..=2` delta range of `Vehicle::unload_cargo_at_station`. -/
def deltas5 : List ℤ := [-2, -1, 0, 1, 2]

/-- One clamped scan coordinate of `Vehicle::unload_cargo_at_station`:
`(x + d).max(0).min(bound - 1)` per axis. -/
def coordOf (x y width height : ℕ) (d : ℤ × ℤ) : ℤ × ℤ :=
  (min (max ((x : ℤ) + d.1) 0) ((width : ℤ) - 1),
   min (max ((y : ℤ) + d.2) 0) ((height : ℤ) - 1))

/-- The 25 clamped scan coordinates of `Vehicle::unload_cargo_at_station`
(src/vehicle.rs lines 356-359), `dx` outer, `dy` inner. -/
def unloadCoords (x y width height : ℕ) : List (ℤ × ℤ) :=
  (deltas5.map (fun dx => deltas5.map (fun dy =>
    coordOf x y width height (dx, dy)))).flatten

/-- Tile lookup at possibly-negative coordinates: a negative coordinate cast
`as usize` wraps far beyond any grid bound, so `get` misses. -/
def getTileZ (w : World) (c : ℤ × ℤ) : Option Tile :=
  if 0 ≤ c.1 ∧ 0 ≤ c.2 then w.get_tile c.1.toNat c.2.toNat else none

/-- Tile modification at possibly-negative coordinates (same convention). -/
def modifyTileZ (w : World) (c : ℤ × ℤ) (f : Tile → Tile) : World :=
  if 0 ≤ c.1 ∧ 0 ≤ c.2 then w.modifyTile c.1.toNat c.2.toNat f else w

/-- The inner delivery loop of `Vehicle::unload_cargo_at_station`
(src/vehicle.rs lines 364-368): `saturating_sub` every delivered amount from
the town's demand map. -/
def subtractDelivered (delivered : List (CargoType × ℕ))
    (demand : CargoType → ℕ) : CargoType → ℕ :=
  delivered.foldl (fun m p => pointUpdate m p.1 (m p.1 - p.2)) demand

/-- One scan step of `Vehicle::unload_cargo_at_station`: if the (clamped)
tile is a town, subtract the delivered amounts from its demand and add them
all to `total_delivered`. -/
def unloadStep (delivered : List (CargoType × ℕ)) (acc : World × ℕ)
    (c : ℤ × ℤ) : World × ℕ :=
  match getTileZ acc.1 c with
  | some tile =>
      match tile.content with
      | .Town _ =>
          (modifyTileZ acc.1 c (fun t =>
             match t.content with
             | .Town town => { t with content := .Town { town with
                 cargo_demand := subtractDelivered delivered town.cargo_demand } }
             | _ => t),
           acc.2 + (delivered.map Prod.snd).sum)
      | _ => acc
  | none => acc

/-- The pairs produced by `self.cargo.drain()`.  The drain yields exactly the
stored keys; enumerating every kind is equivalent because a pair with amount
0 leaves both the demand map and `total_delivered` unchanged, and the drained
list is empty exactly when `cargoSum` is 0. -/
def deliveredList (m : CargoType → ℕ) : List (CargoType × ℕ) :=
  cargoKinds.map (fun ct => (ct, m ct))

/-- `Vehicle::unload_cargo_at_station` (src/vehicle.rs lines 348-386), with
the `rand::random::<f32>() > 0.2` on-time roll passed in as `onTime`.  The
unused `&mut Economy` parameter of the source is omitted. -/
def Vehicle.unload_cargo_at_station (onTime : Bool) (v : Vehicle) (w : World) :
    Vehicle × World :=
  let delivered := deliveredList v.cargo
  let v1 := { v with cargo := fun _ => 0 }
  if cargoSum v.cargo = 0 then (v1, w)
  else
    let r := (unloadCoords v.x v.y w.width w.height).foldl
      (unloadStep delivered) (w, 0)
    if 0 < r.2 then
      let v2 := { v1 with total_deliveries := v1.total_deliveries + 1 }
      let v3 := if onTime then
          { v2 with on_time_deliveries := v2.on_time_deliveries + 1 }
        else v2
      ({ v3 with profit := v3.profit + (r.2 : ℤ) * 50 }, r.1)
    else (v1, r.1)

/-- The breakdown feature flag from src/vehicle.rs line 6. -/
def BREAKDOWNS_ENABLED : Bool := false

/-- The `age += 1` and yearly reliability decay at the head of
`Vehicle::update` (src/vehicle.rs lines 104-108). -/
def ageStep (v : Vehicle) : Vehicle :=
  if 0 < v.age + 1 ∧ (v.age + 1) % 365 = 0 then
    { v with age := v.age + 1, reliability := v.reliability - 5 }
  else { v with age := v.age + 1 }

/-- The `VehicleState::Moving` arm of `Vehicle::update` (src/vehicle.rs
lines 123-144).  `none` models the `current_path.len() - 1` underflow /
out-of-bounds index panic reachable when `current_path` is empty. -/
def movingStep (v : Vehicle) (w : World) (from_ to_ : ℕ × ℕ)
    (progress : ℚ) : Option (Vehicle × World) :=
  let progress1 := progress + (v.speed : ℚ) / 1000
  if 1 ≤ progress1 then
    let v1 : Vehicle := { v with x := to_.1, y := to_.2 }
    if v1.current_path.length = 0 then none
    else if v1.current_path.length - 1 ≤ v1.path_index then
      some ({ v1 with state := VehicleState.Loading
                      current_path := ([] : List (ℕ × ℕ))
                      path_index := 0 }, w)
    else
      match v1.current_path.get? (v1.path_index + 1) with
      | some nxt => some ({ v1 with path_index := v1.path_index + 1
                                    state := VehicleState.Moving from_ nxt 0 }, w)
      | none => none
  else some ({ v with state := .Moving from_ to_ progress1 }, w)

/-- The `VehicleState::Loading` arm of `Vehicle::update` (src/vehicle.rs
lines 145-149).  `none` models the `(route_index + 1) % route.len()`
division-by-zero panic when the route is empty. -/
def loadingStep (order : List CargoType) (v : Vehicle) (w : World) :
    Option (Vehicle × World) :=
  let r := v.load_cargo_at_station order w
  let v1 : Vehicle := { r.1 with state := VehicleState.Idle }
  if v1.route.length = 0 then none
  else some ({ v1 with
    route_index := (v1.route_index + 1) % v1.route.length }, r.2)

/-- `Vehicle::update` (src/vehicle.rs lines 103-162).  Random draws are
passed in (`brokenRoll`, `repairRoll` for the two `random::<u8>()` calls,
`onTime` for the delivery roll); `fuel` bounds the pathfinding loops;
`order` is the iteration order of the station's waiting map.  `none` models
a panic.  The unused `&mut Economy` parameter of the source is omitted. -/
def Vehicle.update (fuel : ℕ) (order : List CargoType)
    (brokenRoll repairRoll : ℕ) (onTime : Bool) (v : Vehicle) (w : World) :
    Option (Vehicle × World) :=
  let v := ageStep v
  if BREAKDOWNS_ENABLED = true ∧ 180 < v.age - v.last_service ∧
      v.reliability < brokenRoll then
    some ({ v with state := .Broken }, w)
  else
    match v.state with
    | .Idle =>
        if v.route ≠ [] then some (v.start_moving_to_next_station fuel w, w)
        else some (v, w)
    | .Moving from_ to_ progress => movingStep v w from_ to_ progress
    | .Loading => loadingStep order v w
    | .Unloading =>
        let r := v.unload_cargo_at_station onTime w
        some ({ r.1 with state := .Idle }, r.2)
    | .Broken =>
        if repairRoll < 10 then
          some ({ v with state := .Idle
                         last_service := v.age
                         reliability := min (v.reliability + 20) 100 }, w)
        else some (v, w)

end RusTTD

namespace RusTTD

/-- `VehicleStateSave` from src/save.rs. -/
inductive VehicleStateSave where
  | Idle
  | Moving (from_ to_ : ℕ × ℕ) (progress : ℚ)
  | Loading
  | Unloading
  | Broken
  deriving DecidableEq, Repr

/-- `VehicleStateSave::from_vehicle_state` (src/save.rs lines 428-440). -/
def VehicleStateSave.from_vehicle_state : VehicleState → VehicleStateSave
  | .Idle => .Idle
  | .Moving f t p => .Moving f t p
  | .Loading => .Loading
  | .Unloading => .Unloading
  | .Broken => .Broken

/-- `VehicleStateSave::to_vehicle_state` (src/save.rs lines 442-450). -/
def VehicleStateSave.to_vehicle_state : VehicleStateSave → VehicleState
  | .Idle => .Idle
  | .Moving f t p => .Moving f t p
  | .Loading => .Loading
  | .Unloading => .Unloading
  | .Broken => .Broken

/-- `VehicleSave` from src/save.rs (note: no cargo field). -/
structure VehicleSave where
  id : ℕ
  vehicle_type : VehicleType
  x : ℕ
  y : ℕ
  state : VehicleStateSave
  route : List (ℕ × ℕ)
  route_index : ℕ
  current_path : List (ℕ × ℕ)
  path_index : ℕ
  age : ℕ
  reliability : ℕ
  speed : ℕ
  last_service : ℕ
  profit : ℤ
  on_time_deliveries : ℕ
  total_deliveries : ℕ

/-- `VehicleSave::from_vehicle` (src/save.rs lines 383-402). -/
def VehicleSave.from_vehicle (v : Vehicle) : VehicleSave where
  id := v.id
  vehicle_type := v.vehicle_type
  x := v.x
  y := v.y
  state := VehicleStateSave.from_vehicle_state v.state
  route := v.route
  route_index := v.route_index
  current_path := v.current_path
  path_index := v.path_index
  age := v.age
  reliability := v.reliability
  speed := v.speed
  last_service := v.last_service
  profit := v.profit
  on_time_deliveries := v.on_time_deliveries
  total_deliveries := v.total_deliveries

/-- `VehicleSave::to_vehicle` (src/save.rs lines 404-424): every saved field
is restored and the cargo hold is reset to a fresh empty map. -/
def VehicleSave.to_vehicle (s : VehicleSave) : Vehicle where
  id := s.id
  vehicle_type := s.vehicle_type
  x := s.x
  y := s.y
  state := s.state.to_vehicle_state
  cargo := fun _ => 0
  route := s.route
  route_index := s.route_index
  current_path := s.current_path
  path_index := s.path_index
  age := s.age
  reliability := s.reliability
  speed := s.speed
  last_service := s.last_service
  profit := s.profit
  on_time_deliveries := s.on_time_deliveries
  total_deliveries := s.total_deliveries

/-- `EconomySave` from src/save.rs: only the three scalar fields. -/
structure EconomySave where
  inflation_rate : ℚ
  economic_state : EconomicState
  month : ℕ
  deriving DecidableEq, Repr

/-- `EconomySave::from_economy` (src/save.rs lines 454-460). -/
def EconomySave.from_economy (e : Economy) : EconomySave where
  inflation_rate := e.inflation_rate
  economic_state := e.economic_state
  month := e.month

/-- `EconomySave::to_economy` (src/save.rs lines 462-468): start from
`Economy::new` and restore the three scalars, leaving prices and
supply/demand at their initial values. -/
def EconomySave.to_economy (s : EconomySave) : Economy :=
  { Economy.new with inflation_rate := s.inflation_rate
                     economic_state := s.economic_state
                     month := s.month }

end RusTTD

namespace RusTTD

theorem update_economic_state_supply_demand (e : Economy) (roll : ℕ) :
    (e.update_economic_state roll).supply_demand = e.supply_demand := by
  unfold Economy.update_economic_state
  split <;> rfl

theorem update_economic_state_cargo_prices (e : Economy) (roll : ℕ) :
    (e.update_economic_state roll).cargo_prices = e.cargo_prices := by
  unfold Economy.update_economic_state
  split <;> rfl

theorem clampMult_mem (x : ℚ) : 1 / 2 ≤ clampMult x ∧ clampMult x ≤ 3 / 2 := by
  unfold clampMult
  split_ifs with h1 h2
  · exact ⟨by norm_num, le_refl _⟩
  · exact ⟨le_refl _, by norm_num⟩
  · exact ⟨le_of_not_lt h2, le_of_not_lt h1⟩

theorem sdRatio_supply_zero (sd : SupplyDemand) (h : sd.supply = 0) :
    sdRatio sd = 2 := by
  unfold sdRatio
  rw [h]
  norm_num

theorem sdRatio_demand_zero (sd : SupplyDemand) (hd : sd.demand = 0)
    (hs : 0 < sd.supply) : sdRatio sd = 0 := by
  unfold sdRatio
  rw [hd, if_pos hs]
  norm_num

end RusTTD

namespace RusTTD

theorem update_cargo_prices_mult (e : Economy) (ct : CargoType) :
    ((e.update_cargo_prices).supply_demand ct).price_multiplier =
      clampMult (sdRatio (e.supply_demand ct)) := rfl

theorem update_cargo_prices_supply (e : Economy) (ct : CargoType) :
    ((e.update_cargo_prices).supply_demand ct).supply =
      (e.supply_demand ct).supply := rfl

theorem update_cargo_prices_demand (e : Economy) (ct : CargoType) :
    ((e.update_cargo_prices).supply_demand ct).demand =
      (e.supply_demand ct).demand := rfl

theorem clampMult_two : clampMult 2 = 3 / 2 := by
  unfold clampMult
  norm_num

theorem clampMult_zero : clampMult 0 = 1 / 2 := by
  unfold clampMult
  norm_num

/-- C2: after every market tick update (`Economy::update`), the stored
`price_multiplier` of every cargo kind lies in `[0.5, 1.5]`; when the stored
supply is 0 the ratio is treated as 2.0 and the multiplier is exactly 1.5,
and when demand is 0 with positive supply the ratio 0 yields exactly 0.5. -/
theorem market_multiplier_clamped (e : Economy) (w : World) (roll : ℕ)
    (ct : CargoType) :
    (1 / 2 ≤ ((e.update w roll).supply_demand ct).price_multiplier ∧
      ((e.update w roll).supply_demand ct).price_multiplier ≤ 3 / 2) ∧
    (((e.update w roll).supply_demand ct).supply = 0 →
      ((e.update w roll).supply_demand ct).price_multiplier = 3 / 2) ∧
    (((e.update w roll).supply_demand ct).demand = 0 ∧
        0 < ((e.update w roll).supply_demand ct).supply →
      ((e.update w roll).supply_demand ct).price_multiplier = 1 / 2) := by
  simp only [Economy.update]
  rw [update_economic_state_supply_demand]
  refine ⟨?_, fun h => ?_, fun h => ?_⟩
  · rw [update_cargo_prices_mult]
    exact clampMult_mem _
  · rw [update_cargo_prices_supply] at h
    rw [update_cargo_prices_mult, sdRatio_supply_zero _ h, clampMult_two]
  · rw [update_cargo_prices_demand] at h
    rw [update_cargo_prices_supply] at h
    rw [update_cargo_prices_mult, sdRatio_demand_zero _ h.1 h.2, clampMult_zero]

end RusTTD

namespace RusTTD

theorem update_cargo_prices_price (e : Economy) (ct : CargoType) :
    ((e.update_cargo_prices).cargo_prices) ct =
      e.cargo_prices ct * clampMult (sdRatio (e.supply_demand ct)) := rfl

theorem update_supply_demand_prices (e : Economy) (w : World) :
    ((e.update_supply_demand w).cargo_prices) = e.cargo_prices := rfl

/-- A 1×1 all-empty world used as a neutral input for market ticks. -/
def emptyWorld1 : World where
  width := 1
  height := 1
  tiles := fun _ _ => { terrain := .Grass, content := .Empty, height := 0 }
  towns := []
  industries := []
  stations := []

end RusTTD

namespace RusTTD

/-- The month increment and optional monthly step at the head of
`Economy::update`. -/
def preTick (e : Economy) : Economy :=
  if (e.month + 1) % 30 = 0 then
    ({ e with month := e.month + 1 }).update_monthly_economics
  else { e with month := e.month + 1 }

theorem update_as_pipeline (e : Economy) (w : World) (roll : ℕ) :
    e.update w roll =
      ((((preTick e).update_supply_demand w).update_cargo_prices).update_economic_state
        roll) := rfl

theorem preTick_cargo_prices_of_off_month (e : Economy)
    (h : (e.month + 1) % 30 ≠ 0) : (preTick e).cargo_prices = e.cargo_prices := by
  unfold preTick
  rw [if_neg h]

theorem preTick_supply_demand_of_off_month (e : Economy)
    (h : (e.month + 1) % 30 ≠ 0) : (preTick e).supply_demand = e.supply_demand := by
  unfold preTick
  rw [if_neg h]

theorem update_monthly_month (e : Economy) :
    (e.update_monthly_economics).month = e.month := by
  obtain ⟨cp, sd, ir, es, m⟩ := e
  cases es <;> rfl

theorem preTick_month (e : Economy) : (preTick e).month = e.month + 1 := by
  unfold preTick
  split
  · rw [update_monthly_month]
  · rfl

theorem update_economic_state_month (e : Economy) (roll : ℕ) :
    (e.update_economic_state roll).month = e.month := by
  unfold Economy.update_economic_state
  split <;> rfl

theorem update_month (e : Economy) (w : World) (roll : ℕ) :
    (e.update w roll).month = e.month + 1 := by
  rw [update_as_pipeline, update_economic_state_month]
  exact preTick_month e

theorem update_mult_eq (e : Economy) (w : World) (roll : ℕ) (ct : CargoType) :
    ((e.update w roll).supply_demand ct).price_multiplier =
      clampMult (sdRatio (((preTick e).update_supply_demand w).supply_demand ct)) := by
  rw [update_as_pipeline, update_economic_state_supply_demand,
    update_cargo_prices_mult]

/-- Shared compounding lemma: on a tick that is not a 30-tick inflation
boundary, the new quoted price is the previous tick's stored price times the
freshly computed multiplier. -/
theorem update_price_compounds (e : Economy) (w : World) (roll : ℕ)
    (ct : CargoType) (h : (e.month + 1) % 30 ≠ 0) :
    (e.update w roll).cargo_prices ct =
      e.cargo_prices ct * ((e.update w roll).supply_demand ct).price_multiplier := by
  rw [update_as_pipeline, update_economic_state_cargo_prices,
    update_cargo_prices_price, update_supply_demand_prices,
    preTick_cargo_prices_of_off_month e h]
  rw [update_economic_state_supply_demand, update_cargo_prices_mult]

end RusTTD

namespace RusTTD

theorem collect_empty :
    collectSupplyDemand emptyWorld1 = (fun _ => none, fun _ => none) := rfl

theorem usd_empty (e : Economy) (ct : CargoType) :
    ((e.update_supply_demand emptyWorld1).supply_demand) ct =
      e.supply_demand ct := rfl

theorem update_supply_val (e : Economy) (w : World) (roll : ℕ) (ct : CargoType) :
    ((e.update w roll).supply_demand ct).supply =
      (((preTick e).update_supply_demand w).supply_demand ct).supply := by
  rw [update_as_pipeline, update_economic_state_supply_demand,
    update_cargo_prices_supply]

/-- A fresh economy whose Coal market has supply 0 (ratio treated as 2.0). -/
def econCoalShort : Economy :=
  { Economy.new with supply_demand := fun ct =>
      if ct = .Coal then { supply := 0, demand := 1000, price_multiplier := 1 }
      else { supply := 1000, demand := 1000, price_multiplier := 1 } }

theorem econCoalShort_supply_tick1 :
    (((econCoalShort.update emptyWorld1 5).supply_demand .Coal)).supply = 0 := by
  rw [update_supply_val, usd_empty,
    preTick_supply_demand_of_off_month econCoalShort (by decide)]
  rfl

theorem econCoalShort_mult_tick1 :
    ((econCoalShort.update emptyWorld1 5).supply_demand .Coal).price_multiplier
      = 3 / 2 := by
  rw [update_mult_eq, usd_empty,
    preTick_supply_demand_of_off_month econCoalShort (by decide)]
  rw [sdRatio_supply_zero _ (by rfl), clampMult_two]

theorem econCoalShort_mult_tick2 :
    (((econCoalShort.update emptyWorld1 5).update emptyWorld1 5).supply_demand
        .Coal).price_multiplier = 3 / 2 := by
  rw [update_mult_eq, usd_empty,
    preTick_supply_demand_of_off_month _
      (by rw [update_month]; decide)]
  rw [sdRatio_supply_zero _ econCoalShort_supply_tick1, clampMult_two]

theorem econCoalShort_price_tick2 :
    ((econCoalShort.update emptyWorld1 5).update emptyWorld1 5).cargo_prices
      .Coal = 27 / 4 := by
  rw [update_price_compounds _ _ _ _ (by rw [update_month]; decide),
    econCoalShort_mult_tick2,
    update_price_compounds _ _ _ _ (by decide), econCoalShort_mult_tick1]
  show (3 : ℚ) * (3 / 2) * (3 / 2) = 27 / 4
  norm_num

/-- C5 counterexample: starting from `econCoalShort` (Coal base price 3,
supply 0 so the multiplier is 1.5 every tick) and ticking twice against a
world with no towns or industries (months 1 and 2, so no inflation step), the
quoted Coal price is 6.75 = 3 × 1.5 × 1.5, while `base_price ×
price_multiplier` as the claim reads it is 3 × 1.5 = 4.5:
`Economy::update_cargo_prices` writes each adjusted price back into
`cargo_prices`, so successive multipliers compound instead of being applied
to a stable base. -/
theorem price_not_from_stable_base :
    ((econCoalShort.update emptyWorld1 5).update emptyWorld1 5).cargo_prices
        .Coal = 27 / 4 ∧
    econCoalShort.cargo_prices .Coal *
        (((econCoalShort.update emptyWorld1 5).update
            emptyWorld1 5).supply_demand .Coal).price_multiplier = 9 / 2 ∧
    (27 / 4 : ℚ) ≠ 9 / 2 := by
  refine ⟨econCoalShort_price_tick2, ?_, by norm_num⟩
  rw [econCoalShort_mult_tick2]
  show (3 : ℚ) * (3 / 2) = 9 / 2
  norm_num

/-- C5 amended: after a market tick that is not on a 30-tick inflation
boundary, the quoted price of every cargo kind equals the *previous tick's
stored price* times the newly computed multiplier — prices compound
successive multipliers tick over tick (there is no stable base price;
`update_cargo_prices` overwrites `cargo_prices` with the adjusted value). -/
theorem market_price_compounds (e : Economy) (w : World) (roll : ℕ)
    (ct : CargoType) (h : (e.month + 1) % 30 ≠ 0) :
    (e.update w roll).cargo_prices ct =
      e.cargo_prices ct * ((e.update w roll).supply_demand ct).price_multiplier :=
  update_price_compounds e w roll ct h

/-- C5 witness: the amended compounding equation instantiated on the concrete
fresh economy at month 0. -/
theorem market_price_compounds_witness :
    (econCoalShort.month + 1) % 30 ≠ 0 ∧
    (econCoalShort.update emptyWorld1 5).cargo_prices .Coal =
      econCoalShort.cargo_prices .Coal *
        ((econCoalShort.update emptyWorld1 5).supply_demand .Coal).price_multiplier :=
  ⟨by decide, market_price_compounds econCoalShort emptyWorld1 5 .Coal (by decide)⟩

end RusTTD

namespace RusTTD

/-- C2 witness: the clamping theorem instantiated on a concrete economy whose
Coal supply is 0, giving multiplier exactly 1.5. -/
theorem market_multiplier_clamped_witness :
    ((econCoalShort.update emptyWorld1 5).supply_demand .Coal).supply = 0 ∧
    ((econCoalShort.update emptyWorld1 5).supply_demand .Coal).price_multiplier
      = 3 / 2 :=
  ⟨econCoalShort_supply_tick1,
   (market_multiplier_clamped econCoalShort emptyWorld1 5 .Coal).2.1
     econCoalShort_supply_tick1⟩

theorem state_save_roundtrip (s : VehicleState) :
    (VehicleStateSave.from_vehicle_state s).to_vehicle_state = s := by
  cases s <;> rfl

/-- A ship vehicle holding 5 units of Coal. -/
def vehicleWithCargo : Vehicle :=
  { Vehicle.new 0 (.Ship (.CargoShip 10)) 0 0 with
      cargo := fun ct => if ct = .Coal then 5 else 0 }

/-- An economy whose quoted Coal price has drifted to 7. -/
def econPriced : Economy :=
  { Economy.new with cargo_prices := fun _ => 7 }

/-- C7 counterexample: serialising and deserialising a vehicle holding 5 Coal
returns a vehicle with an empty hold (`VehicleSave` has no cargo field and
`to_vehicle` installs a fresh map), and round-tripping an economy whose Coal
price is 7 returns the initial price 3 (`EconomySave` keeps only
inflation_rate, economic_state and month; `to_economy` rebuilds the rest from
`Economy::new`).  The round trip is therefore not lossless. -/
theorem save_roundtrip_lossy :
    ((VehicleSave.from_vehicle vehicleWithCargo).to_vehicle).cargo .Coal = 0 ∧
    vehicleWithCargo.cargo .Coal = 5 ∧
    ((EconomySave.from_economy econPriced).to_economy).cargo_prices .Coal = 3 ∧
    econPriced.cargo_prices .Coal = 7 :=
  ⟨rfl, rfl, rfl, rfl⟩

/-- C7 amended: the vehicle round trip restores every field — id, type,
position, state (including a mid-path Moving state with its progress), route,
route_index, current_path, path_index, age, reliability, speed, last_service,
profit and the delivery counters — except the cargo hold, which is reset to
empty; the economy round trip restores only inflation_rate, economic_state
and month, resetting prices and supply/demand to the `Economy::new`
defaults. -/
theorem save_roundtrip_amended (v : Vehicle) (e : Economy) :
    (VehicleSave.from_vehicle v).to_vehicle = { v with cargo := fun _ => 0 } ∧
    (EconomySave.from_economy e).to_economy =
      { Economy.new with inflation_rate := e.inflation_rate
                         economic_state := e.economic_state
                         month := e.month } := by
  constructor
  · simp only [VehicleSave.from_vehicle, VehicleSave.to_vehicle,
      state_save_roundtrip]
  · rfl

end RusTTD

namespace RusTTD

theorem cargoSum_pointUpdate_add (m : CargoType → ℕ) (ct : CargoType) (t : ℕ) :
    cargoSum (pointUpdate m ct (m ct + t)) = cargoSum m + t := by
  cases ct <;> (simp [cargoSum, cargoKinds, pointUpdate]; try omega)

theorem loadLoop_sum (sw : CargoType → ℕ) :
    ∀ (l : List CargoType) (cargo : CargoType → ℕ) (rem : ℕ),
      cargoSum (loadLoop sw l cargo rem).1 + (loadLoop sw l cargo rem).2.1 =
        cargoSum cargo + rem
  | [], _, _ => rfl
  | ct :: rest, cargo, rem => by
      rw [loadLoop]
      split
      · next h =>
        have ih := loadLoop_sum sw rest
          (pointUpdate cargo ct (cargo ct + min (sw ct) rem))
          (rem - min (sw ct) rem)
        have hle : min (sw ct) rem ≤ rem := min_le_right _ _
        rw [cargoSum_pointUpdate_add] at ih
        simpa using by omega
      · exact loadLoop_sum sw rest cargo rem

theorem get_capacity_set_cargo (v : Vehicle) (c : CargoType → ℕ) :
    ({ v with cargo := c } : Vehicle).get_capacity = v.get_capacity := rfl

end RusTTD

namespace RusTTD

/-- C1: if a vehicle's hold respects its capacity before the Loading
transition (as every freshly constructed vehicle with an empty hold does),
then after `Vehicle::load_cargo_at_station` the total held cargo is still at
most `get_capacity`, whatever order the station's waiting map is iterated
in. -/
theorem load_preserves_capacity (order : List CargoType) (v : Vehicle)
    (w : World) (h : cargoSum v.cargo ≤ v.get_capacity) :
    cargoSum ((Vehicle.load_cargo_at_station order v w).1).cargo ≤
      ((Vehicle.load_cargo_at_station order v w).1).get_capacity := by
  simp only [Vehicle.load_cargo_at_station]
  by_cases hav : v.get_capacity - cargoSum v.cargo = 0
  · rw [if_pos hav]
    exact h
  · rw [if_neg hav]
    cases htile : w.get_tile v.x v.y with
    | none => exact h
    | some tile =>
        dsimp only
        cases htc : tile.content with
        | Station s =>
            dsimp only
            have key := loadLoop_sum s.cargo_waiting order v.cargo
              (v.get_capacity - cargoSum v.cargo)
            show cargoSum (loadLoop s.cargo_waiting order v.cargo
              (v.get_capacity - cargoSum v.cargo)).1 ≤ v.get_capacity
            omega
        | Empty => exact h
        | Town t => exact h
        | Industry i => exact h
        | Track tt => exact h
        | Road => exact h

end RusTTD

namespace RusTTD

/-- A 1×1 world whose single tile is a train station with 7 Coal waiting. -/
def stationWorld1 : World where
  width := 1
  height := 1
  tiles := fun _ _ =>
    { terrain := .Grass
      content := .Station { name := "Depot"
                            station_type := .Train
                            cargo_waiting := fun ct => if ct = .Coal then 7 else 0
                            connections := [] }
      height := 0 }
  towns := []
  industries := []
  stations := [(0, 0)]

/-- C1 witness: the capacity invariant applied to a fresh small truck
(capacity 5, empty hold) loading at the Coal station. -/
theorem load_preserves_capacity_witness :
    cargoSum (Vehicle.new 1 (.Road (.SmallTruck 5)) 0 0).cargo ≤
      (Vehicle.new 1 (.Road (.SmallTruck 5)) 0 0).get_capacity ∧
    cargoSum ((Vehicle.load_cargo_at_station cargoKinds
        (Vehicle.new 1 (.Road (.SmallTruck 5)) 0 0) stationWorld1).1).cargo ≤
      ((Vehicle.load_cargo_at_station cargoKinds
        (Vehicle.new 1 (.Road (.SmallTruck 5)) 0 0) stationWorld1).1).get_capacity :=
  ⟨by decide, load_preserves_capacity cargoKinds _ _ (by decide)⟩

end RusTTD

namespace RusTTD

theorem ageStep_state (v : Vehicle) : (ageStep v).state = v.state := by
  unfold ageStep; split <;> rfl

theorem ageStep_route (v : Vehicle) : (ageStep v).route = v.route := by
  unfold ageStep; split <;> rfl

theorem ageStep_current_path (v : Vehicle) :
    (ageStep v).current_path = v.current_path := by
  unfold ageStep; split <;> rfl

theorem ageStep_x (v : Vehicle) : (ageStep v).x = v.x := by
  unfold ageStep; split <;> rfl

theorem ageStep_y (v : Vehicle) : (ageStep v).y = v.y := by
  unfold ageStep; split <;> rfl

theorem ageStep_route_index (v : Vehicle) :
    (ageStep v).route_index = v.route_index := by
  unfold ageStep; split <;> rfl

theorem ageStep_vehicle_type (v : Vehicle) :
    (ageStep v).vehicle_type = v.vehicle_type := by
  unfold ageStep; split <;> rfl

theorem load_cargo_shape (order : List CargoType) (v : Vehicle) (w : World) :
    ∃ c, (Vehicle.load_cargo_at_station order v w).1 = { v with cargo := c } := by
  simp only [Vehicle.load_cargo_at_station]
  by_cases hav : v.get_capacity - cargoSum v.cargo = 0
  · rw [if_pos hav]
    exact ⟨v.cargo, rfl⟩
  · rw [if_neg hav]
    cases htile : w.get_tile v.x v.y with
    | none => exact ⟨v.cargo, rfl⟩
    | some tile =>
        dsimp only
        cases htc : tile.content with
        | Station s => exact ⟨_, rfl⟩
        | Empty => exact ⟨v.cargo, rfl⟩
        | Town t => exact ⟨v.cargo, rfl⟩
        | Industry i => exact ⟨v.cargo, rfl⟩
        | Track tt => exact ⟨v.cargo, rfl⟩
        | Road => exact ⟨v.cargo, rfl⟩

theorem movingStep_isSome (v : Vehicle) (w : World) (f t : ℕ × ℕ) (p : ℚ)
    (h : v.current_path ≠ []) : (movingStep v w f t p).isSome = true := by
  simp only [movingStep]
  split
  · have hlen : ¬ ({ v with x := t.1, y := t.2 } : Vehicle).current_path.length = 0 := by
      simpa using (fun h0 => h (List.length_eq_zero.mp h0))
    rw [if_neg hlen]
    split
    · rfl
    · next h2 =>
        cases hg : ({ v with x := t.1, y := t.2 } : Vehicle).current_path.get?
            (({ v with x := t.1, y := t.2 } : Vehicle).path_index + 1) with
        | some nxt => rfl
        | none =>
            exfalso
            have hge := List.get?_eq_none.mp hg
            simp only at hge h2
            omega
  · rfl

theorem loadingStep_isSome (order : List CargoType) (v : Vehicle) (w : World)
    (h : v.route ≠ []) : (loadingStep order v w).isSome = true := by
  simp only [loadingStep]
  obtain ⟨c, hc⟩ := load_cargo_shape order v w
  rw [hc]
  dsimp only
  rw [if_neg (fun h0 => h (List.length_eq_zero.mp h0))]
  rfl

/-- C8 amended: `Vehicle::update` runs to completion (no modelled panic) for
every vehicle state in which a Loading vehicle has a non-empty route and a
Moving vehicle a non-empty current_path.  (The counterexample shows the first
proviso is necessary: a vehicle that has entered Loading and is then given an
empty route by `assign_route` hits the `% route.len()` division by zero.) -/
theorem vehicle_update_no_panic (fuel : ℕ) (order : List CargoType)
    (br rr : ℕ) (ot : Bool) (v : Vehicle) (w : World)
    (hLoad : v.state = .Loading → v.route ≠ [])
    (hMove : ∀ f t p, v.state = .Moving f t p → v.current_path ≠ []) :
    (Vehicle.update fuel order br rr ot v w).isSome = true := by
  simp only [Vehicle.update]
  split
  · rfl
  · rw [ageStep_state]
    cases hst : v.state with
    | Idle =>
        dsimp only
        split <;> rfl
    | Moving f t p =>
        dsimp only
        refine movingStep_isSome _ w f t p ?_
        rw [ageStep_current_path]
        exact hMove f t p hst
    | Loading =>
        dsimp only
        refine loadingStep_isSome order _ w ?_
        rw [ageStep_route]
        exact hLoad hst
    | Unloading => dsimp only; rfl
    | Broken =>
        dsimp only
        split <;> rfl

end RusTTD

namespace RusTTD

/-- C8 counterexample: a freshly purchased ship assigned the one-stop route
`[(0,0)]` at its own position enters Loading on its first update (the
degenerate ship path has length 1); reassigning an empty route — a legal
`assign_route` call, which never touches `state` — and updating again reaches
`route_index = (route_index + 1) % route.len()` with `route.len() = 0`, the
division-by-zero panic modelled as `none`. -/
theorem vehicle_update_empty_route_panics :
    ((Vehicle.update 0 cargoKinds 0 0 false
        ((Vehicle.new 0 (.Ship (.CargoShip 10)) 0 0).assign_route [(0, 0)])
        emptyWorld1).map (fun p => p.1.state)) = some VehicleState.Loading ∧
    ((Vehicle.update 0 cargoKinds 0 0 false
        ((Vehicle.new 0 (.Ship (.CargoShip 10)) 0 0).assign_route [(0, 0)])
        emptyWorld1).bind (fun p =>
          Vehicle.update 0 cargoKinds 0 0 false (p.1.assign_route []) p.2)) =
      none :=
  ⟨rfl, rfl⟩

/-- C8 witness: the no-panic theorem applied to a fresh Idle ship (its state
is neither Loading nor Moving, so both provisos hold vacuously). -/
theorem vehicle_update_no_panic_witness :
    (((Vehicle.new 2 (.Ship (.CargoShip 10)) 0 0).state = VehicleState.Loading →
        (Vehicle.new 2 (.Ship (.CargoShip 10)) 0 0).route ≠ []) ∧
      (∀ f t p, (Vehicle.new 2 (.Ship (.CargoShip 10)) 0 0).state =
          VehicleState.Moving f t p →
        (Vehicle.new 2 (.Ship (.CargoShip 10)) 0 0).current_path ≠ [])) ∧
    (Vehicle.update 3 cargoKinds 0 0 false
        (Vehicle.new 2 (.Ship (.CargoShip 10)) 0 0) emptyWorld1).isSome = true :=
  ⟨⟨fun h => VehicleState.noConfusion h,
    fun _ _ _ h => VehicleState.noConfusion h⟩,
   vehicle_update_no_panic 3 cargoKinds 0 0 false _ _
     (fun h => VehicleState.noConfusion h)
     (fun _ _ _ h => VehicleState.noConfusion h)⟩

end RusTTD

namespace RusTTD

/-- One hop of train connectivity: `b` is among the Track/Station
4-neighbours of `a`. -/
def trainStep (w : World) (a b : ℕ × ℕ) : Prop := b ∈ trainNeighbors w a

/-- Track/Station connectivity: the reflexive-transitive closure of
`trainStep` — exactly the search space of `Vehicle::find_train_path`. -/
def TrainReach (w : World) (a b : ℕ × ℕ) : Prop :=
  Relation.ReflTransGen (trainStep w) a b

theorem processNeighbors_openSet_sound (w : World) (start current : ℕ × ℕ)
    (visited : List (ℕ × ℕ)) (hcur : TrainReach w start current) :
    ∀ (ns : List (ℕ × ℕ)) (st : BfsState),
      (∀ n ∈ ns, trainStep w current n) →
      (∀ p ∈ st.openSet, TrainReach w start p) →
      ∀ p ∈ (processNeighbors current ns visited st).openSet,
        TrainReach w start p
  | [], st, _, hopen => hopen
  | n :: rest, st, hns, hopen => by
      have hstep : ∀ m ∈ rest, trainStep w current m :=
        fun m hm => hns m (List.mem_cons_of_mem _ hm)
      simp only [processNeighbors, List.foldl_cons]
      apply processNeighbors_openSet_sound w start current visited hcur rest _
        hstep
      intro p hp
      by_cases hv : n ∈ visited
      · rw [if_pos hv] at hp
        exact hopen p hp
      · rw [if_neg hv] at hp
        split at hp
        · simp only at hp
          by_cases hmem : n ∈ st.openSet
          · rw [if_pos hmem] at hp
            exact hopen p hp
          · rw [if_neg hmem] at hp
            rcases List.mem_append.mp hp with h1 | h2
            · exact hopen p h1
            · have hpn : p = n := List.mem_singleton.mp h2
              subst hpn
              exact hcur.tail (hns p (List.mem_cons_self _ _))
        · exact hopen p hp

theorem bfsLoop_sound (w : World) (start goal : ℕ × ℕ) :
    ∀ (fuel : ℕ) (st : BfsState) (visited : List (ℕ × ℕ)),
      (∀ p ∈ st.openSet, TrainReach w start p) →
      ∀ path, bfsLoop w start goal fuel st visited = some path →
        TrainReach w start goal
  | 0, st, visited, _, path, h => by simp [bfsLoop] at h
  | fuel + 1, st, visited, hopen, path, h => by
      rw [bfsLoop] at h
      cases hos : st.openSet with
      | nil => rw [hos] at h; exact absurd h (by simp)
      | cons current rest =>
          rw [hos] at h
          dsimp only at h
          have hcur : TrainReach w start current :=
            hopen current (hos ▸ List.mem_cons_self _ _)
          have hrest : ∀ p ∈ rest, TrainReach w start p :=
            fun p hp => hopen p (hos ▸ List.mem_cons_of_mem _ hp)
          by_cases hg : current = goal
          · exact hg ▸ hcur
          · rw [if_neg hg] at h
            by_cases hv : current ∈ visited
            · rw [if_pos hv] at h
              exact bfsLoop_sound w start goal fuel _ _ hrest path h
            · rw [if_neg hv] at h
              refine bfsLoop_sound w start goal fuel _ _ ?_ path h
              exact processNeighbors_openSet_sound w start current
                (visited ++ [current]) hcur (trainNeighbors w current)
                { st with openSet := rest } (fun n hn => hn) hrest

theorem find_train_path_sound (fuel : ℕ) (w : World) (start goal : ℕ × ℕ)
    (path : List (ℕ × ℕ)) (h : find_train_path fuel w start goal = some path) :
    TrainReach w start goal := by
  refine bfsLoop_sound w start goal fuel _ [] ?_ path h
  intro p hp
  rcases List.mem_singleton.mp hp with rfl
  exact Relation.ReflTransGen.refl

end RusTTD

namespace RusTTD

theorem breakdown_cond_false (v : Vehicle) (br : ℕ) :
    ¬ (BREAKDOWNS_ENABLED = true ∧ 180 < v.age - v.last_service ∧
        v.reliability < br) := by
  simp [BREAKDOWNS_ENABLED]

theorem train_idle_step (fuel : ℕ) (order : List CargoType) (br rr : ℕ)
    (ot : Bool) (v : Vehicle) (w : World) (e : TrainEngine)
    (cars : List TrainCar) (htype : v.vehicle_type = .Train e cars)
    (hst : v.state = .Idle)
    (hun : ∀ g, v.route.get? v.route_index = some g →
      ¬ TrainReach w (v.x, v.y) g) :
    ∃ v1, Vehicle.update fuel order br rr ot v w = some (v1, w) ∧
      v1.state = .Idle ∧ v1.x = v.x ∧ v1.y = v.y ∧ v1.route = v.route ∧
      v1.route_index = v.route_index ∧ v1.vehicle_type = v.vehicle_type := by
  simp only [Vehicle.update]
  rw [if_neg (breakdown_cond_false (ageStep v) br)]
  rw [ageStep_state, hst]
  dsimp only
  split
  · simp only [Vehicle.start_moving_to_next_station]
    rw [ageStep_route, ageStep_route_index]
    cases hget : v.route.get? v.route_index with
    | none =>
        exact ⟨ageStep v, rfl, ageStep_state v ▸ hst, ageStep_x v,
          ageStep_y v, ageStep_route v, ageStep_route_index v,
          ageStep_vehicle_type v⟩
    | some g =>
        dsimp only
        simp only [Vehicle.find_path_to_station]
        rw [ageStep_vehicle_type, htype]
        dsimp only
        rw [ageStep_x, ageStep_y]
        cases hf : find_train_path fuel w (v.x, v.y) g with
        | some path =>
            exact absurd (find_train_path_sound fuel w (v.x, v.y) g path hf)
              (hun g hget)
        | none =>
            exact ⟨_, rfl, rfl, rfl, rfl, rfl, rfl, rfl⟩
  · exact ⟨ageStep v, rfl, ageStep_state v ▸ hst, ageStep_x v, ageStep_y v,
      ageStep_route v, ageStep_route_index v, ageStep_vehicle_type v⟩

end RusTTD

namespace RusTTD

/-- Iterated per-tick vehicle updates against a fixed world, with a stream of
random draws (`rolls n` supplies the two `random::<u8>()` bytes and the
on-time roll of tick `n`). -/
def updateIter (fuel : ℕ) (order : List CargoType)
    (rolls : ℕ → ℕ × ℕ × Bool) : ℕ → Vehicle × World → Option (Vehicle × World)
  | 0, p => some p
  | n + 1, p =>
      (Vehicle.update fuel order (rolls n).1 (rolls n).2.1 (rolls n).2.2 p.1
        p.2).bind (updateIter fuel order rolls n)

theorem train_idle_iter (fuel : ℕ) (order : List CargoType)
    (rolls : ℕ → ℕ × ℕ × Bool) (w : World) (e : TrainEngine)
    (cars : List TrainCar) :
    ∀ (n : ℕ) (v : Vehicle), v.vehicle_type = .Train e cars →
      v.state = .Idle →
      (∀ g, v.route.get? v.route_index = some g →
        ¬ TrainReach w (v.x, v.y) g) →
      ∃ v1, updateIter fuel order rolls n (v, w) = some (v1, w) ∧
        v1.state = .Idle
  | 0, v, _, hst, _ => ⟨v, rfl, hst⟩
  | n + 1, v, htype, hst, hun => by
      obtain ⟨v1, hup, hst1, hx, hy, hroute, hri, htv⟩ :=
        train_idle_step fuel order (rolls n).1 (rolls n).2.1 (rolls n).2.2 v w
          e cars htype hst hun
      have hun1 : ∀ g, v1.route.get? v1.route_index = some g →
          ¬ TrainReach w (v1.x, v1.y) g := by
        rw [hroute, hri, hx, hy]; exact hun
      obtain ⟨v2, hit, hst2⟩ := train_idle_iter fuel order rolls w e cars n v1
        (htv.trans htype) hst1 hun1
      refine ⟨v2, ?_, hst2⟩
      rw [updateIter, hup]
      exact hit

/-- C9: a train vehicle whose current route waypoint has no Track/Station
connectivity from its tile (no `TrainReach` path) never leaves Idle: the
breadth-first search returns `none` for any fuel, every tick completes
normally (`some`), and the state after any number of ticks is still Idle. -/
theorem train_unreachable_stays_idle (fuel : ℕ) (order : List CargoType)
    (rolls : ℕ → ℕ × ℕ × Bool) (v : Vehicle) (w : World) (e : TrainEngine)
    (cars : List TrainCar) (htype : v.vehicle_type = .Train e cars)
    (hst : v.state = .Idle)
    (hun : ∀ g, v.route.get? v.route_index = some g →
      ¬ TrainReach w (v.x, v.y) g) :
    (∀ g, v.route.get? v.route_index = some g →
      ∀ fuel2, find_train_path fuel2 w (v.x, v.y) g = none) ∧
    ∀ n, ∃ v1, updateIter fuel order rolls n (v, w) = some (v1, w) ∧
      v1.state = .Idle := by
  constructor
  · intro g hg fuel2
    cases hf : find_train_path fuel2 w (v.x, v.y) g with
    | none => rfl
    | some path =>
        exact absurd (find_train_path_sound fuel2 w (v.x, v.y) g path hf)
          (hun g hg)
  · intro n
    exact train_idle_iter fuel order rolls w e cars n v htype hst hun

/-- A 2×1 all-empty world: no track or station anywhere. -/
def emptyWorld2 : World where
  width := 2
  height := 1
  tiles := fun _ _ => { terrain := .Grass, content := .Empty, height := 0 }
  towns := []
  industries := []
  stations := []

/-- A steam train at (0,0) of `emptyWorld2` routed to the bare tile (1,0). -/
def strandedTrain : Vehicle :=
  (Vehicle.new 3 (.Train (.Steam 100 80) []) 0 0).assign_route [(1, 0)]

theorem strandedTrain_unreach :
    ∀ g, strandedTrain.route.get? strandedTrain.route_index = some g →
      ¬ TrainReach emptyWorld2 (strandedTrain.x, strandedTrain.y) g := by
  intro g hg
  have hgeq : g = (1, 0) := by
    simp [strandedTrain, Vehicle.assign_route, Vehicle.new] at hg
    exact hg.symm
  subst hgeq
  intro h
  rcases h.cases_head with heq | ⟨c, hc, _⟩
  · exact absurd heq (by decide)
  · have hnn : trainNeighbors emptyWorld2 (strandedTrain.x, strandedTrain.y)
        = [] := by decide
    rw [trainStep, hnn] at hc
    exact absurd hc (List.not_mem_nil c)

/-- C9 witness: the stays-Idle theorem applied to the concrete stranded
train. -/
theorem train_unreachable_stays_idle_witness :
    (strandedTrain.vehicle_type = VehicleType.Train (.Steam 100 80) [] ∧
      strandedTrain.state = VehicleState.Idle) ∧
    ((∀ g, strandedTrain.route.get? strandedTrain.route_index = some g →
        ∀ fuel2, find_train_path fuel2 emptyWorld2
          (strandedTrain.x, strandedTrain.y) g = none) ∧
      ∀ n, ∃ v1, updateIter 5 cargoKinds (fun _ => (0, 0, false)) n
          (strandedTrain, emptyWorld2) = some (v1, emptyWorld2) ∧
        v1.state = .Idle) :=
  ⟨⟨rfl, rfl⟩,
   train_unreachable_stays_idle 5 cargoKinds (fun _ => (0, 0, false))
     strandedTrain emptyWorld2 (.Steam 100 80) [] rfl rfl
     strandedTrain_unreach⟩

end RusTTD

namespace RusTTD

/-- The town occupying a coordinate, if any. -/
def townAt (w : World) (x y : ℕ) : Option Town :=
  match w.get_tile x y with
  | some tile =>
      match tile.content with
      | .Town t => some t
      | _ => none
  | none => none

/-- The population stored on a tile, if it holds a town. -/
def popTile (tile : Tile) : Option ℕ :=
  match tile.content with
  | .Town t => some t.population
  | _ => none

theorem populationAt_eq (w : World) (a b : ℕ) :
    populationAt w a b =
      (match w.get_tile a b with
       | some tile => popTile tile
       | none => none) := by
  unfold populationAt popTile
  cases w.get_tile a b with
  | none => rfl
  | some tile => cases tile.content <;> rfl

theorem popTile_prodTile (t : Tile) : popTile (prodTile t) = popTile t := by
  obtain ⟨terr, c, ht⟩ := t
  cases c <;> rfl

theorem popTile_addWaiting (tr : CargoType → ℕ) (t : Tile) :
    popTile (addWaiting tr t) = popTile t := by
  obtain ⟨terr, c, ht⟩ := t
  cases c <;> rfl

theorem popTile_removeStock (tr : CargoType → ℕ) (t : Tile) :
    popTile (removeStock tr t) = popTile t := by
  obtain ⟨terr, c, ht⟩ := t
  cases c <;> rfl

theorem popTile_addPassengersTile (p : ℕ) (t : Tile) :
    popTile (addPassengersTile p t) = popTile t := by
  obtain ⟨terr, c, ht⟩ := t
  cases c <;> rfl

theorem popTile_supplyDecTile (p : ℕ) (t : Tile) :
    popTile (supplyDecTile p t) = popTile t := by
  obtain ⟨terr, c, ht⟩ := t
  cases c <;> rfl

theorem populationAt_modifyTile (w : World) (x y a b : ℕ) (f : Tile → Tile)
    (hf : ∀ t, popTile (f t) = popTile t) :
    populationAt (w.modifyTile x y f) a b = populationAt w a b := by
  rw [populationAt_eq, populationAt_eq]
  unfold World.modifyTile World.get_tile
  by_cases hb : x < w.width ∧ y < w.height
  · rw [if_pos hb]
    dsimp only
    by_cases hab : a < w.width ∧ b < w.height
    · rw [if_pos hab, if_pos hab]
      dsimp only
      by_cases hxy : a = x ∧ b = y
      · rw [if_pos hxy]
        obtain ⟨h1, h2⟩ := hxy
        subst h1; subst h2
        exact hf _
      · rw [if_neg hxy]
    · rw [if_neg hab, if_neg hab]
  · rw [if_neg hb]

theorem populationAt_foldl {α : Type} (step : World → α → World)
    (hstep : ∀ (w : World) (p : α) (a b : ℕ),
      populationAt (step w p) a b = populationAt w a b) :
    ∀ (l : List α) (w : World) (a b : ℕ),
      populationAt (l.foldl step w) a b = populationAt w a b
  | [], _, _, _ => rfl
  | p :: l, w, a, b => by
      rw [List.foldl_cons, populationAt_foldl step hstep l, hstep]

theorem populationAt_stationScan (w : World) (tr : CargoType → ℕ)
    (cols rows : List ℕ) (a b : ℕ) :
    populationAt (stationScan w tr cols rows) a b = populationAt w a b := by
  unfold stationScan
  refine populationAt_foldl _ ?_ cols w a b
  intro w1 sx a1 b1
  refine populationAt_foldl _ ?_ rows w1 a1 b1
  intro w2 sy a2 b2
  exact populationAt_modifyTile w2 sx sy a2 b2 _ (popTile_addWaiting tr)

theorem populationAt_transferCargo (w : World) (a b : ℕ) :
    populationAt (w.transfer_cargo_to_stations) a b = populationAt w a b := by
  unfold World.transfer_cargo_to_stations
  refine populationAt_foldl _ ?_ w.industries w a b
  intro w1 p a1 b1
  unfold transferFromIndustry
  rw [populationAt_modifyTile _ _ _ _ _ _ (popTile_removeStock _)]
  exact populationAt_stationScan w1 _ _ _ a1 b1

theorem populationAt_transferPassengers (w : World) (a b : ℕ) :
    populationAt (w.transfer_passengers_to_stations) a b = populationAt w a b := by
  unfold World.transfer_passengers_to_stations
  refine populationAt_foldl _ ?_ w.towns w a b
  intro w1 p a1 b1
  simp only [transferFromTown]
  split
  · rw [populationAt_modifyTile _ _ _ _ _ _ (popTile_supplyDecTile _)]
    refine populationAt_foldl _ ?_ (townCols w1 p.1) w1 a1 b1
    intro w2 sx a2 b2
    cases hfind : (townRows w1 p.2).find?
        (fun sy => isStationTile (w2.get_tile sx sy)) with
    | none => simp only [hfind]
    | some sy =>
        simp only [hfind]
        exact populationAt_modifyTile w2 sx sy a2 b2 _
          (popTile_addPassengersTile _)
  · rfl

theorem populationAt_industryPhase (w : World) (a b : ℕ) :
    populationAt (industryPhase w) a b = populationAt w a b := by
  unfold industryPhase
  refine populationAt_foldl _ ?_ w.industries w a b
  intro w1 p a1 b1
  exact populationAt_modifyTile w1 p.1 p.2 a1 b1 _ popTile_prodTile

end RusTTD

namespace RusTTD

theorem populationAt_eq_townAt (w : World) (a b : ℕ) :
    populationAt w a b = (townAt w a b).map Town.population := by
  unfold populationAt townAt
  cases w.get_tile a b with
  | none => rfl
  | some tile =>
      obtain ⟨terr, c, ht⟩ := tile
      cases c <;> rfl

theorem townAt_modifyTile_ne (w : World) (x y a b : ℕ) (f : Tile → Tile)
    (hne : ¬(a = x ∧ b = y)) :
    townAt (w.modifyTile x y f) a b = townAt w a b := by
  unfold townAt World.modifyTile World.get_tile
  by_cases hb : x < w.width ∧ y < w.height
  · rw [if_pos hb]
    dsimp only
    by_cases hab : a < w.width ∧ b < w.height
    · rw [if_pos hab, if_pos hab]
      dsimp only
      rw [if_neg hne]
    · rw [if_neg hab, if_neg hab]
  · rw [if_neg hb]

theorem townAt_modifyTile_grow (w : World) (x y : ℕ) :
    townAt (w.modifyTile x y growTile) x y =
      (townAt w x y).map townTickContent := by
  unfold townAt World.modifyTile World.get_tile
  by_cases hb : x < w.width ∧ y < w.height
  · rw [if_pos hb]
    dsimp only
    rw [if_pos hb, if_pos hb]
    dsimp only
    rw [if_pos ⟨rfl, rfl⟩]
    generalize w.tiles x y = t
    obtain ⟨terr, c, ht⟩ := t
    cases c <;> rfl
  · rw [if_neg hb]
    rw [if_neg hb]
    rfl

theorem townAt_growFold_notmem :
    ∀ (l : List (ℕ × ℕ)) (w : World) (x y : ℕ), (x, y) ∉ l →
      townAt (l.foldl (fun w1 p => w1.modifyTile p.1 p.2 growTile) w) x y =
        townAt w x y
  | [], _, _, _, _ => rfl
  | ⟨p1, p2⟩ :: l, w, x, y, hmem => by
      rw [List.foldl_cons,
        townAt_growFold_notmem l _ x y
          (fun h => hmem (List.mem_cons_of_mem _ h)),
        townAt_modifyTile_ne]
      rintro ⟨h1, h2⟩
      subst h1; subst h2
      exact hmem (List.mem_cons_self _ _)

theorem townAt_growFold_count_one :
    ∀ (l : List (ℕ × ℕ)) (w : World) (x y : ℕ), l.count (x, y) = 1 →
      townAt (l.foldl (fun w1 p => w1.modifyTile p.1 p.2 growTile) w) x y =
        (townAt w x y).map townTickContent
  | [], _, x, y, hc => by simp at hc
  | ⟨p1, p2⟩ :: l, w, x, y, hc => by
      rw [List.foldl_cons]
      by_cases hp : (p1, p2) = (x, y)
      · obtain ⟨h1, h2⟩ := Prod.mk.injEq .. ▸ hp
        subst h1; subst h2
        have hnot : (p1, p2) ∉ l := by
          rw [List.count_cons_self] at hc
          exact List.count_eq_zero.mp (by omega)
        rw [townAt_growFold_notmem l _ _ _ hnot]
        exact townAt_modifyTile_grow w p1 p2
      · have hc' : l.count (x, y) = 1 := by
          rw [List.count_cons] at hc
          simpa [hp] using hc
        rw [townAt_growFold_count_one l _ x y hc', townAt_modifyTile_ne]
        rintro ⟨h1, h2⟩
        subst h1; subst h2
        exact hp rfl

theorem townAt_growthPhase (w : World) (x y : ℕ)
    (hc : w.towns.count (x, y) = 1) :
    townAt (growthPhase w) x y = (townAt w x y).map townTickContent :=
  townAt_growFold_count_one w.towns w x y hc

/-- C6: for a town (a coordinate listed once in `w.towns`) with non-negative
growth rate, one `World::update` sets its population to
`⌊population × (1 + growth_rate/100)⌋` (the `as u32` truncation of the f32
product, modelled exactly over ℚ), which is never below the old population:
population is monotonically non-decreasing tick over tick. -/
theorem town_population_tick (w : World) (x y : ℕ) (town : Town)
    (htown : townAt w x y = some town)
    (hcount : w.towns.count (x, y) = 1)
    (hg : 0 ≤ town.growth_rate) :
    populationAt (World.update w) x y =
      some (⌊(town.population : ℚ) * (1 + town.growth_rate / 100)⌋₊) ∧
    town.population ≤
      ⌊(town.population : ℚ) * (1 + town.growth_rate / 100)⌋₊ := by
  have hle : (town.population : ℚ) ≤
      (town.population : ℚ) * (1 + town.growth_rate / 100) := by
    have h1 : (0 : ℚ) ≤ (town.population : ℚ) := Nat.cast_nonneg _
    have h2 : (0 : ℚ) ≤ town.growth_rate / 100 :=
      div_nonneg hg (by norm_num)
    nlinarith
  constructor
  · unfold World.update
    rw [populationAt_transferPassengers, populationAt_transferCargo,
      populationAt_industryPhase, populationAt_eq_townAt,
      townAt_growthPhase w x y hcount, htown]
    show some ((townTickContent town).population) = _
    rw [show (townTickContent town).population =
      ratToU32 ((town.population : ℚ) * (1 + town.growth_rate / 100)) from rfl]
    rw [ratToU32, Int.floor_toNat]
  · exact Nat.le_floor hle

end RusTTD

namespace RusTTD

/-- A small town with population 1000 and growth rate 1%/tick. -/
def townT : Town where
  name := "Springfield"
  population := 1000
  growth_rate := 1
  cargo_demand := fun _ => 0
  cargo_supply := fun _ => 0

/-- A 1×1 world whose single tile is `townT`, listed once in `towns`. -/
def townWorld1 : World where
  width := 1
  height := 1
  tiles := fun _ _ => { terrain := .Grass, content := .Town townT, height := 0 }
  towns := [(0, 0)]
  industries := []
  stations := []

/-- C6 witness: the growth theorem applied to the concrete 1×1 town world
(population 1000, growth 1%). -/
theorem town_population_tick_witness :
    (townAt townWorld1 0 0 = some townT ∧
      townWorld1.towns.count (0, 0) = 1 ∧ 0 ≤ townT.growth_rate) ∧
    (populationAt (World.update townWorld1) 0 0 =
        some (⌊(townT.population : ℚ) * (1 + townT.growth_rate / 100)⌋₊) ∧
      townT.population ≤
        ⌊(townT.population : ℚ) * (1 + townT.growth_rate / 100)⌋₊) :=
  ⟨⟨rfl, by decide, by norm_num [townT]⟩,
   town_population_tick townWorld1 0 0 townT rfl (by decide)
     (by norm_num [townT])⟩

end RusTTD

namespace RusTTD

theorem get_tile_bounds (w : World) (x y : ℕ) (t : Tile)
    (h : w.get_tile x y = some t) : x < w.width ∧ y < w.height := by
  unfold World.get_tile at h
  by_cases hb : x < w.width ∧ y < w.height
  · exact hb
  · rw [if_neg hb] at h
    exact absurd h (by simp)

theorem modifyTile_get_tile (w : World) (x y a b : ℕ) (f : Tile → Tile) :
    (w.modifyTile x y f).get_tile a b =
      if a = x ∧ b = y then (w.get_tile a b).map f else w.get_tile a b := by
  by_cases hxy : a = x ∧ b = y
  · obtain ⟨h1, h2⟩ := hxy
    subst h1; subst h2
    rw [if_pos ⟨rfl, rfl⟩]
    unfold World.modifyTile World.get_tile
    by_cases hb : a < w.width ∧ b < w.height
    · rw [if_pos hb]
      dsimp only
      rw [if_pos hb, if_pos hb, if_pos ⟨rfl, rfl⟩]
      rfl
    · rw [if_neg hb, if_neg hb]
      rfl
  · rw [if_neg hxy]
    unfold World.modifyTile World.get_tile
    by_cases hb : x < w.width ∧ y < w.height
    · rw [if_pos hb]
      dsimp only
      by_cases hab : a < w.width ∧ b < w.height
      · rw [if_pos hab, if_pos hab, if_neg hxy]
      · rw [if_neg hab, if_neg hab]
    · rw [if_neg hb]

theorem mem_closedRange (a b x : ℕ) : x ∈ closedRange a b ↔ a ≤ x ∧ x ≤ b := by
  simp only [closedRange, List.mem_map, List.mem_range]
  constructor
  · rintro ⟨i, hi, rfl⟩
    omega
  · rintro ⟨h1, h2⟩
    exact ⟨x - a, by omega, by omega⟩

theorem closedRange_nodup (a b : ℕ) : (closedRange a b).Nodup := by
  unfold closedRange
  exact (List.nodup_range _).map (fun i j h => by omega)

theorem rowScan_get_tile (tr : CargoType → ℕ) (sx : ℕ) :
    ∀ (rows : List ℕ) (w : World) (a b : ℕ), rows.Nodup →
      ((rows.foldl (fun w2 sy => w2.modifyTile sx sy (addWaiting tr)) w)).get_tile
          a b =
        if a = sx ∧ b ∈ rows then (w.get_tile a b).map (addWaiting tr)
        else w.get_tile a b
  | [], w, a, b, _ => by simp
  | sy :: rest, w, a, b, hnd => by
      rw [List.foldl_cons, rowScan_get_tile tr sx rest _ a b hnd.of_cons,
        modifyTile_get_tile]
      by_cases hmem : a = sx ∧ b ∈ rest
      · have hne : ¬(a = sx ∧ b = sy) := by
          rintro ⟨h1, h2⟩
          subst h2
          exact (List.nodup_cons.mp hnd).1 hmem.2
        rw [if_pos hmem, if_neg hne,
          if_pos (⟨hmem.1, List.mem_cons_of_mem _ hmem.2⟩ :
            a = sx ∧ b ∈ sy :: rest)]
      · rw [if_neg hmem]
        by_cases hself : a = sx ∧ b = sy
        · rw [if_pos hself,
            if_pos (⟨hself.1, by rw [hself.2]; exact List.mem_cons_self _ _⟩ :
              a = sx ∧ b ∈ sy :: rest)]
        · rw [if_neg hself, if_neg (show ¬(a = sx ∧ b ∈ sy :: rest) by
            rintro ⟨h1, h2⟩
            rcases List.mem_cons.mp h2 with h3 | h3
            · exact hself ⟨h1, h3⟩
            · exact hmem ⟨h1, h3⟩)]

theorem stationScan_get_tile (tr : CargoType → ℕ) (rows : List ℕ)
    (hr : rows.Nodup) :
    ∀ (cols : List ℕ) (w : World) (a b : ℕ), cols.Nodup →
      (stationScan w tr cols rows).get_tile a b =
        if a ∈ cols ∧ b ∈ rows then (w.get_tile a b).map (addWaiting tr)
        else w.get_tile a b
  | [], w, a, b, _ => by simp [stationScan]
  | sx :: rest, w, a, b, hnd => by
      unfold stationScan
      rw [List.foldl_cons]
      rw [show (List.foldl (fun w1 sx => rows.foldl
          (fun w2 sy => w2.modifyTile sx sy (addWaiting tr)) w1) _ rest) =
        stationScan (rows.foldl (fun w2 sy =>
          w2.modifyTile sx sy (addWaiting tr)) w) tr rest rows from rfl]
      rw [stationScan_get_tile tr rows hr rest _ a b hnd.of_cons,
        rowScan_get_tile tr sx rows w a b hr]
      by_cases hmem : a ∈ rest ∧ b ∈ rows
      · have hne : ¬(a = sx ∧ b ∈ rows) := by
          rintro ⟨h1, _⟩
          subst h1
          exact (List.nodup_cons.mp hnd).1 hmem.1
        rw [if_pos hmem, if_neg hne,
          if_pos (⟨List.mem_cons_of_mem _ hmem.1, hmem.2⟩ :
            a ∈ sx :: rest ∧ b ∈ rows)]
      · rw [if_neg hmem]
        by_cases hself : a = sx ∧ b ∈ rows
        · rw [if_pos hself,
            if_pos (⟨by rw [hself.1]; exact List.mem_cons_self _ _, hself.2⟩ :
              a ∈ sx :: rest ∧ b ∈ rows)]
        · rw [if_neg hself, if_neg (show ¬(a ∈ sx :: rest ∧ b ∈ rows) by
            rintro ⟨h1, h2⟩
            rcases List.mem_cons.mp h1 with h3 | h3
            · exact hself ⟨h3, h2⟩
            · exact hmem ⟨h3, h2⟩)]

end RusTTD

namespace RusTTD

theorem addWaiting_of_industry (tr : CargoType → ℕ) (tile : Tile)
    (i : Industry) (h : tile.content = .Industry i) :
    addWaiting tr tile = tile := by
  obtain ⟨terr, c, ht⟩ := tile
  dsimp only at h
  subst h
  rfl

theorem addWaiting_of_station (tr : CargoType → ℕ) (tile : Tile) (s : Station)
    (h : tile.content = .Station s) :
    addWaiting tr tile = { tile with content := .Station { s with
      cargo_waiting := fun ct => s.cargo_waiting ct + tr ct } } := by
  obtain ⟨terr, c, ht⟩ := tile
  dsimp only at h
  subst h
  rfl

theorem removeStock_of_industry (tr : CargoType → ℕ) (tile : Tile)
    (i : Industry) (h : tile.content = .Industry i) :
    removeStock tr tile = { tile with content := .Industry { i with
      stockpile := fun ct => i.stockpile ct - tr ct } } := by
  obtain ⟨terr, c, ht⟩ := tile
  dsimp only at h
  subst h
  rfl

theorem transferFromIndustry_eq (w : World) (ix iy : ℕ) (tile : Tile)
    (ind : Industry) (htile : w.get_tile ix iy = some tile)
    (hcontent : tile.content = .Industry ind) :
    transferFromIndustry w (ix, iy) =
      (stationScan w (transferAmt ind.stockpile) (industryCols w ix)
        (industryRows w iy)).modifyTile ix iy
        (removeStock (transferAmt ind.stockpile)) := by
  simp only [transferFromIndustry]
  rw [htile]
  dsimp only
  rw [hcontent]

end RusTTD

namespace RusTTD

/-- C3 amended: during the cargo-diffusion pass, an industry at (ix,iy) has
`transferAmt = max(stockpile/4, 1)` computed per positive-stockpile kind;
every station in the clamped radius-3 window receives that full amount, the
stockpile is decremented by that amount exactly once — `saturating_sub`,
regardless of how many (even zero) stations are in range — and tiles outside
the window are untouched. -/
theorem transfer_from_industry_spec (w : World) (ix iy : ℕ) (tile : Tile)
    (ind : Industry) (htile : w.get_tile ix iy = some tile)
    (hcontent : tile.content = .Industry ind) :
    (∀ ct, stockpileAt (transferFromIndustry w (ix, iy)) ix iy ct =
        some (ind.stockpile ct - transferAmt ind.stockpile ct)) ∧
    (∀ sx sy stile s, sx ∈ industryCols w ix → sy ∈ industryRows w iy →
      w.get_tile sx sy = some stile → stile.content = .Station s →
      ∀ ct, waitingAt (transferFromIndustry w (ix, iy)) sx sy ct =
        some (s.cargo_waiting ct + transferAmt ind.stockpile ct)) ∧
    (∀ sx sy, ¬(sx ∈ industryCols w ix ∧ sy ∈ industryRows w iy) →
      ¬(sx = ix ∧ sy = iy) →
      (transferFromIndustry w (ix, iy)).get_tile sx sy = w.get_tile sx sy) := by
  obtain ⟨hwx, hwy⟩ := get_tile_bounds w ix iy tile htile
  have hcols : ix ∈ industryCols w ix := by
    rw [industryCols, mem_closedRange]
    constructor
    · omega
    · omega
  have hrows : iy ∈ industryRows w iy := by
    rw [industryRows, mem_closedRange]
    constructor
    · omega
    · omega
  rw [transferFromIndustry_eq w ix iy tile ind htile hcontent]
  have hscan := stationScan_get_tile (transferAmt ind.stockpile)
    (industryRows w iy) (closedRange_nodup _ _) (industryCols w ix)
  refine ⟨?_, ?_, ?_⟩
  · intro ct
    unfold stockpileAt
    rw [modifyTile_get_tile, if_pos ⟨rfl, rfl⟩,
      hscan w ix iy (closedRange_nodup _ _), if_pos ⟨hcols, hrows⟩, htile]
    rw [show Option.map (addWaiting (transferAmt ind.stockpile)) (some tile)
        = some tile by
      rw [Option.map_some']
      rw [addWaiting_of_industry _ tile ind hcontent]]
    rw [show Option.map (removeStock (transferAmt ind.stockpile)) (some tile)
        = some ({ tile with content := .Industry { ind with
            stockpile := fun ct => ind.stockpile ct -
              transferAmt ind.stockpile ct } }) by
      rw [Option.map_some']
      rw [removeStock_of_industry _ tile ind hcontent]]
  · intro sx sy stile s hsx hsy hstile hss ct
    have hne : ¬(sx = ix ∧ sy = iy) := by
      rintro ⟨h1, h2⟩
      subst h1; subst h2
      rw [htile] at hstile
      obtain rfl : tile = stile := Option.some.inj hstile
      rw [hcontent] at hss
      exact TileContent.noConfusion hss
    unfold waitingAt
    rw [modifyTile_get_tile, if_neg hne,
      hscan w sx sy (closedRange_nodup _ _), if_pos ⟨hsx, hsy⟩, hstile]
    rw [Option.map_some', addWaiting_of_station _ stile s hss]
  · intro sx sy hout hne
    rw [modifyTile_get_tile, if_neg hne,
      hscan w sx sy (closedRange_nodup _ _), if_neg hout]

end RusTTD

namespace RusTTD

/-- A coal mine with 100 Coal stockpiled. -/
def coalMine : Industry where
  industry_type := .CoalMine
  production_rate := 10
  cargo_input := []
  cargo_output := [.Coal]
  stockpile := fun ct => if ct = .Coal then 100 else 0

/-- A station with nothing waiting. -/
def emptyStation : Station where
  name := "S"
  station_type := .Train
  cargo_waiting := fun _ => 0
  connections := []

/-- A 7×1 world: the coal mine at (3,0) with stations at (2,0) and (4,0). -/
def indWorld : World where
  width := 7
  height := 1
  tiles := fun x _ =>
    if x = 3 then { terrain := .Grass, content := .Industry coalMine, height := 0 }
    else if x = 2 ∨ x = 4 then
      { terrain := .Grass, content := .Station emptyStation, height := 0 }
    else { terrain := .Grass, content := .Empty, height := 0 }
  towns := []
  industries := [(3, 0)]
  stations := [(2, 0), (4, 0)]

/-- C3 counterexample: with two stations in range of the coal mine (stockpile
100), the diffusion pass pushes 25 to each station — 50 in total — but
decrements the stockpile by only 25 (100 → 75): the stockpile is not
decremented by the total amount actually pushed. -/
theorem cargo_diffusion_decrement_mismatch :
    stockpileAt (World.transfer_cargo_to_stations indWorld) 3 0 .Coal =
      some 75 ∧
    waitingAt (World.transfer_cargo_to_stations indWorld) 2 0 .Coal =
      some 25 ∧
    waitingAt (World.transfer_cargo_to_stations indWorld) 4 0 .Coal =
      some 25 ∧
    100 - 75 ≠ 25 + 25 := by
  refine ⟨by decide, by decide, by decide, by decide⟩

/-- The coal-mine tile of `indWorld`. -/
def indTile : Tile where
  terrain := .Grass
  content := .Industry coalMine
  height := 0

/-- C3 witness: the per-industry diffusion theorem applied to the concrete
coal-mine world. -/
theorem transfer_from_industry_spec_witness :
    (indWorld.get_tile 3 0 = some indTile ∧
      indTile.content = .Industry coalMine) ∧
    ∀ ct, stockpileAt (transferFromIndustry indWorld (3, 0)) 3 0 ct =
      some (coalMine.stockpile ct - transferAmt coalMine.stockpile ct) :=
  ⟨⟨rfl, rfl⟩,
   (transfer_from_industry_spec indWorld 3 0 _ coalMine rfl rfl).1⟩

/-- A town with 10 passengers waiting to leave. -/
def psgTown : Town where
  name := "T"
  population := 500
  growth_rate := 1
  cargo_demand := fun _ => 0
  cargo_supply := fun ct => if ct = .Passengers then 10 else 0

/-- A 5×1 world: the town at (2,0) with stations at (1,0) and (3,0), in two
different columns of the radius-2 window. -/
def psgWorld : World where
  width := 5
  height := 1
  tiles := fun x _ =>
    if x = 2 then { terrain := .Grass, content := .Town psgTown, height := 0 }
    else if x = 1 ∨ x = 3 then
      { terrain := .Grass, content := .Station emptyStation, height := 0 }
    else { terrain := .Grass, content := .Empty, height := 0 }
  towns := [(2, 0)]
  industries := []
  stations := [(1, 0), (3, 0)]

/-- C4: the `break` in `World::transfer_passengers_to_stations` exits only
the inner `station_y` loop, so the town's 5 passengers (half of 10) are
delivered to the first station of *every* column of the radius-2 window:
both in-range stations receive 5, and the town's supply is decremented by 5
only once — contradicting the source's own comment
"Only transfer to first station found". -/
theorem passengers_to_multiple_stations :
    waitingAt (World.transfer_passengers_to_stations psgWorld) 1 0
      .Passengers = some 5 ∧
    waitingAt (World.transfer_passengers_to_stations psgWorld) 3 0
      .Passengers = some 5 ∧
    supplyAt (World.transfer_passengers_to_stations psgWorld) 2 0
      .Passengers = some 5 := by
  refine ⟨by decide, by decide, by decide⟩

end RusTTD

namespace RusTTD

/-- Whether the (possibly clamped, possibly negative) coordinate holds a
town. -/
def isTownZ (w : World) (c : ℤ × ℤ) : Bool :=
  match getTileZ w c with
  | some tile =>
      match tile.content with
      | .Town _ => true
      | _ => false
  | none => false

/-- Demand entry of the town at a signed coordinate, if any. -/
def demandAtZ (w : World) (c : ℤ × ℤ) (ct : CargoType) : Option ℕ :=
  match getTileZ w c with
  | some tile =>
      match tile.content with
      | .Town t => some (t.cargo_demand ct)
      | _ => none
  | none => none

theorem modifyTileZ_getTileZ (w : World) (c c2 : ℤ × ℤ) (f : Tile → Tile) :
    getTileZ (modifyTileZ w c f) c2 =
      if c2 = c then (getTileZ w c2).map f else getTileZ w c2 := by
  unfold modifyTileZ getTileZ
  by_cases hc : 0 ≤ c.1 ∧ 0 ≤ c.2
  · rw [if_pos hc]
    by_cases hc2 : 0 ≤ c2.1 ∧ 0 ≤ c2.2
    · rw [if_pos hc2, if_pos hc2, modifyTile_get_tile]
      by_cases heq : c2 = c
      · rw [if_pos heq,
          if_pos ⟨by rw [heq], by rw [heq]⟩]
      · by_cases hnat : c2.1.toNat = c.1.toNat ∧ c2.2.toNat = c.2.toNat
        · exfalso
          apply heq
          have h1 : c2.1 = c.1 := by omega
          have h2 : c2.2 = c.2 := by omega
          exact Prod.ext h1 h2
        · rw [if_neg hnat, if_neg heq]
    · rw [if_neg hc2, if_neg hc2]
      by_cases heq : c2 = c
      · rw [if_pos heq]
        rfl
      · rw [if_neg heq]
  · rw [if_neg hc]
    by_cases heq : c2 = c
    · rw [if_pos heq, heq, if_neg hc]
      rfl
    · rw [if_neg heq]

/-- The sum of the pairs drained from the hold is `cargoSum`. -/
theorem deliveredList_sum (m : CargoType → ℕ) :
    ((deliveredList m).map Prod.snd).sum = cargoSum m := by
  simp [deliveredList, cargoSum, cargoKinds]

end RusTTD

namespace RusTTD

theorem unloadStep_snd (d : List (CargoType × ℕ)) (acc : World × ℕ)
    (c : ℤ × ℤ) :
    (unloadStep d acc c).2 =
      acc.2 + (if isTownZ acc.1 c then (d.map Prod.snd).sum else 0) := by
  unfold unloadStep isTownZ
  cases h : getTileZ acc.1 c with
  | none => simp
  | some tile =>
      obtain ⟨terr, tc, ht⟩ := tile
      cases tc <;> simp

theorem unloadStep_isTownZ (d : List (CargoType × ℕ)) (acc : World × ℕ)
    (c c2 : ℤ × ℤ) :
    isTownZ (unloadStep d acc c).1 c2 = isTownZ acc.1 c2 := by
  unfold unloadStep
  cases h : getTileZ acc.1 c with
  | none => rfl
  | some tile =>
      obtain ⟨terr, tc, ht⟩ := tile
      cases tc with
      | Town t =>
          dsimp only
          conv_lhs => rw [isTownZ]
          rw [modifyTileZ_getTileZ]
          by_cases heq : c2 = c
          · rw [if_pos heq, heq, h]
            simp [isTownZ, h]
          · rw [if_neg heq]
            rfl
      | Empty => rfl
      | Industry i => rfl
      | Station s => rfl
      | Track tt => rfl
      | Road => rfl

theorem unloadScan_snd (d : List (CargoType × ℕ)) :
    ∀ (coords : List (ℤ × ℤ)) (w : World) (t0 : ℕ),
      (coords.foldl (unloadStep d) (w, t0)).2 =
        t0 + ((coords.map (fun c =>
          if isTownZ w c then (d.map Prod.snd).sum else 0)).sum)
  | [], _, _ => by simp
  | c :: coords, w, t0 => by
      rw [List.foldl_cons]
      have hpair : unloadStep d (w, t0) c =
          ((unloadStep d (w, t0) c).1, (unloadStep d (w, t0) c).2) := rfl
      rw [hpair, unloadScan_snd d coords _ _]
      rw [unloadStep_snd]
      have hmap : (coords.map (fun c2 =>
          if isTownZ (unloadStep d (w, t0) c).1 c2 then
            (d.map Prod.snd).sum else 0)) =
          (coords.map (fun c2 =>
            if isTownZ w c2 then (d.map Prod.snd).sum else 0)) := by
        refine List.map_congr_left ?_
        intro c2 _
        rw [unloadStep_isTownZ]
      rw [hmap]
      simp only [List.map_cons, List.sum_cons]
      omega

theorem subtractDelivered_deliveredList (m demand : CargoType → ℕ)
    (ct : CargoType) :
    subtractDelivered (deliveredList m) demand ct = demand ct - m ct := by
  cases ct <;>
    simp [subtractDelivered, deliveredList, cargoKinds, pointUpdate]

end RusTTD

namespace RusTTD

theorem unloadStep_demandAtZ (m : CargoType → ℕ) (acc : World × ℕ)
    (c c2 : ℤ × ℤ) (ct : CargoType) :
    demandAtZ (unloadStep (deliveredList m) acc c).1 c2 ct =
      if c2 = c then (demandAtZ acc.1 c2 ct).map (fun dd => dd - m ct)
      else demandAtZ acc.1 c2 ct := by
  unfold unloadStep
  cases h : getTileZ acc.1 c with
  | none =>
      by_cases heq : c2 = c
      · rw [if_pos heq, heq]
        unfold demandAtZ
        rw [h]
        rfl
      · rw [if_neg heq]
  | some tile =>
      obtain ⟨terr, tc, ht⟩ := tile
      cases tc with
      | Town t =>
          dsimp only
          conv_lhs => rw [demandAtZ]
          rw [modifyTileZ_getTileZ]
          by_cases heq : c2 = c
          · rw [if_pos heq, if_pos heq, heq, h]
            unfold demandAtZ
            rw [h]
            show some (subtractDelivered (deliveredList m) t.cargo_demand ct)
              = some (t.cargo_demand ct - m ct)
            rw [subtractDelivered_deliveredList]
          · rw [if_neg heq, if_neg heq]
            rfl
      | Empty =>
          by_cases heq : c2 = c
          · rw [if_pos heq, heq]
            unfold demandAtZ
            rw [h]
            rfl
          · rw [if_neg heq]
      | Industry i =>
          by_cases heq : c2 = c
          · rw [if_pos heq, heq]
            unfold demandAtZ
            rw [h]
            rfl
          · rw [if_neg heq]
      | Station s =>
          by_cases heq : c2 = c
          · rw [if_pos heq, heq]
            unfold demandAtZ
            rw [h]
            rfl
          · rw [if_neg heq]
      | Track tt =>
          by_cases heq : c2 = c
          · rw [if_pos heq, heq]
            unfold demandAtZ
            rw [h]
            rfl
          · rw [if_neg heq]
      | Road =>
          by_cases heq : c2 = c
          · rw [if_pos heq, heq]
            unfold demandAtZ
            rw [h]
            rfl
          · rw [if_neg heq]

theorem unloadScan_demandAtZ (m : CargoType → ℕ) :
    ∀ (coords : List (ℤ × ℤ)) (acc : World × ℕ) (c : ℤ × ℤ) (ct : CargoType),
      demandAtZ (coords.foldl (unloadStep (deliveredList m)) acc).1 c ct =
        (demandAtZ acc.1 c ct).map (fun dd => dd - coords.count c * m ct)
  | [], acc, c, ct => by
      cases hD : demandAtZ acc.1 c ct <;> simp [hD]
  | c0 :: coords, acc, c, ct => by
      rw [List.foldl_cons, unloadScan_demandAtZ m coords _ c ct,
        unloadStep_demandAtZ]
      by_cases heq : c = c0
      · rw [if_pos heq]
        have hcount : (c0 :: coords).count c = coords.count c + 1 := by
          simp [List.count_cons, heq]
        rw [hcount]
        have harith : m ct + coords.count c * m ct =
            (coords.count c + 1) * m ct := by ring
        cases hD : demandAtZ acc.1 c ct with
        | none => simp
        | some dd =>
            simp only [Option.map_some']
            rw [Nat.sub_sub, harith]
      · rw [if_neg heq]
        have hcount : (c0 :: coords).count c = coords.count c := by
          simp [List.count_cons, heq]
        rw [hcount]

end RusTTD

namespace RusTTD

theorem le_sum_map_one {α : Type} (g : α → ℕ) (l : List α) (a : α)
    (ha : a ∈ l) : g a ≤ (l.map g).sum := by
  obtain ⟨l1, l2, rfl⟩ := List.append_of_mem ha
  rw [List.map_append, List.sum_append, List.map_cons, List.sum_cons]
  omega

theorem le_sum_map_two {α : Type} (g : α → ℕ) (l : List α) (a b : α)
    (ha : a ∈ l) (hb : b ∈ l) (hab : a ≠ b) :
    g a + g b ≤ (l.map g).sum := by
  obtain ⟨l1, l2, rfl⟩ := List.append_of_mem ha
  have hb2 : b ∈ l1 ∨ b ∈ l2 := by
    rcases List.mem_append.mp hb with h1 | h1
    · exact Or.inl h1
    · rcases List.mem_cons.mp h1 with h2 | h2
      · exact absurd h2.symm hab
      · exact Or.inr h2
  rw [List.map_append, List.sum_append, List.map_cons, List.sum_cons]
  rcases hb2 with h1 | h1
  · have := le_sum_map_one g l1 b h1
    omega
  · have := le_sum_map_one g l2 b h1
    omega

theorem two_le_count_map {α β : Type} [BEq β] [LawfulBEq β] (f : α → β)
    (l : List α) (a b : α) (ha : a ∈ l) (hb : b ∈ l) (hab : a ≠ b)
    (hf : f a = f b) : 2 ≤ (l.map f).count (f a) := by
  obtain ⟨l1, l2, rfl⟩ := List.append_of_mem ha
  have hb2 : b ∈ l1 ∨ b ∈ l2 := by
    rcases List.mem_append.mp hb with h1 | h1
    · exact Or.inl h1
    · rcases List.mem_cons.mp h1 with h2 | h2
      · exact absurd h2.symm hab
      · exact Or.inr h2
  rw [List.map_append, List.count_append, List.map_cons, List.count_cons]
  simp only [beq_self_eq_true, if_true]
  rcases hb2 with h1 | h1
  · have hmem : f a ∈ l1.map f := List.mem_map.mpr ⟨b, h1, hf.symm⟩
    have := List.count_pos_iff.mpr hmem
    omega
  · have hmem : f a ∈ l2.map f := List.mem_map.mpr ⟨b, h1, hf.symm⟩
    have := List.count_pos_iff.mpr hmem
    omega

theorem unloadCoords_count_two (x y width height : ℕ) (d1 d2 : ℤ × ℤ)
    (h1x : d1.1 ∈ deltas5) (h1y : d1.2 ∈ deltas5)
    (h2x : d2.1 ∈ deltas5) (h2y : d2.2 ∈ deltas5) (hne : d1 ≠ d2)
    (heq : coordOf x y width height d1 = coordOf x y width height d2) :
    2 ≤ (unloadCoords x y width height).count (coordOf x y width height d1) := by
  rw [unloadCoords, List.count_flatten, List.map_map]
  have hgoal : (List.count (coordOf x y width height d1) ∘ fun dx =>
      List.map (fun dy => coordOf x y width height (dx, dy)) deltas5) =
      fun dx => (deltas5.map (fun dy =>
        coordOf x y width height (dx, dy))).count
          (coordOf x y width height d1) := rfl
  rw [hgoal]
  by_cases hxx : d1.1 = d2.1
  · have hyy : d1.2 ≠ d2.2 := by
      intro h
      exact hne (Prod.ext hxx h)
    have hblock : 2 ≤ (deltas5.map (fun dy =>
        coordOf x y width height (d1.1, dy))).count
          (coordOf x y width height d1) := by
      have hfeq : coordOf x y width height (d1.1, d1.2) =
          coordOf x y width height (d1.1, d2.2) := by
        show coordOf x y width height d1 =
          coordOf x y width height (d1.1, d2.2)
        rw [hxx]
        exact heq
      have := two_le_count_map
        (fun dy => coordOf x y width height (d1.1, dy)) deltas5 d1.2 d2.2
        h1y h2y hyy hfeq
      exact this
    have hsum := le_sum_map_one (fun dx => (deltas5.map (fun dy =>
      coordOf x y width height (dx, dy))).count
        (coordOf x y width height d1)) deltas5 d1.1 h1x
    dsimp only at hsum
    omega
  · have g1 : 0 < (deltas5.map (fun dy =>
        coordOf x y width height (d1.1, dy))).count
          (coordOf x y width height d1) :=
      List.count_pos_iff.mpr (List.mem_map.mpr ⟨d1.2, h1y, rfl⟩)
    have g2 : 0 < (deltas5.map (fun dy =>
        coordOf x y width height (d2.1, dy))).count
          (coordOf x y width height d1) :=
      List.count_pos_iff.mpr (List.mem_map.mpr ⟨d2.2, h2y, heq.symm⟩)
    have hsum := le_sum_map_two (fun dx => (deltas5.map (fun dy =>
      coordOf x y width height (dx, dy))).count
        (coordOf x y width height d1)) deltas5 d1.1 d2.1 h1x h2x hxx
    dsimp only at hsum
    omega

theorem unloadCoords_dup (x y width height : ℕ)
    (hedge : x < 2 ∨ width ≤ x + 2 ∨ y < 2 ∨ height ≤ y + 2) :
    ∃ c0, 2 ≤ (unloadCoords x y width height).count c0 := by
  rcases hedge with h | h | h | h
  · exact ⟨coordOf x y width height (-2, 0),
      unloadCoords_count_two x y width height (-2, 0) (-1, 0)
        (by decide) (by decide) (by decide) (by decide) (by decide)
        (by simp only [coordOf, Prod.mk.injEq, Int.min_def, Int.max_def, and_true, true_and]; split_ifs <;> omega)⟩
  · exact ⟨coordOf x y width height (1, 0),
      unloadCoords_count_two x y width height (1, 0) (2, 0)
        (by decide) (by decide) (by decide) (by decide) (by decide)
        (by simp only [coordOf, Prod.mk.injEq, Int.min_def, Int.max_def, and_true, true_and]; split_ifs <;> omega)⟩
  · exact ⟨coordOf x y width height (0, -2),
      unloadCoords_count_two x y width height (0, -2) (0, -1)
        (by decide) (by decide) (by decide) (by decide) (by decide)
        (by simp only [coordOf, Prod.mk.injEq, Int.min_def, Int.max_def, and_true, true_and]; split_ifs <;> omega)⟩
  · exact ⟨coordOf x y width height (0, 1),
      unloadCoords_count_two x y width height (0, 1) (0, 2)
        (by decide) (by decide) (by decide) (by decide) (by decide)
        (by simp only [coordOf, Prod.mk.injEq, Int.min_def, Int.max_def, and_true, true_and]; split_ifs <;> omega)⟩

set_option maxHeartbeats 1000000 in
/-- C10: the radius-2 unloading scan clamps out-of-range coordinates to the
grid border instead of skipping them, so for every vehicle within 2 tiles of
an edge some border tile occurs more than once among the 25 scan coordinates;
a town occupying any scan coordinate `c` has each delivered cargo amount
subtracted from its demand once per occurrence of `c` in the scan (count `k`
subtracts `k * amount`), and each occurrence of a town coordinate adds the
full delivered total to `total_delivered`, hence to the `$50`-per-unit
delivery profit — once per duplicate visit, not once per town in range. -/
theorem unload_edge_duplicate_delivery (onTime : Bool) (v : Vehicle) (w : World)
    (c : ℤ × ℤ) (ct : CargoType)
    (hedge : v.x < 2 ∨ w.width ≤ v.x + 2 ∨ v.y < 2 ∨ w.height ≤ v.y + 2)
    (hcargo : cargoSum v.cargo ≠ 0)
    (htown : isTownZ w c = true)
    (hmem : 0 < (unloadCoords v.x v.y w.width w.height).count c) :
    (∃ c0, 2 ≤ (unloadCoords v.x v.y w.width w.height).count c0) ∧
    demandAtZ (v.unload_cargo_at_station onTime w).2 c ct =
      (demandAtZ w c ct).map (fun dd =>
        dd - (unloadCoords v.x v.y w.width w.height).count c * v.cargo ct) ∧
    (v.unload_cargo_at_station onTime w).1.profit =
      v.profit + (((unloadCoords v.x v.y w.width w.height).map (fun c2 =>
        if isTownZ w c2 then cargoSum v.cargo else 0)).sum : ℤ) * 50 := by
  have hr2 : ((unloadCoords v.x v.y w.width w.height).foldl
      (unloadStep (deliveredList v.cargo)) (w, 0)).2 =
      ((unloadCoords v.x v.y w.width w.height).map (fun c2 =>
        if isTownZ w c2 then cargoSum v.cargo else 0)).sum := by
    rw [unloadScan_snd, Nat.zero_add]
    simp only [deliveredList_sum]
  have hc_mem : c ∈ unloadCoords v.x v.y w.width w.height :=
    List.count_pos_iff.mp hmem
  have hpos : 0 < ((unloadCoords v.x v.y w.width w.height).map (fun c2 =>
      if isTownZ w c2 then cargoSum v.cargo else 0)).sum := by
    have hle := le_sum_map_one (fun c2 =>
      if isTownZ w c2 then cargoSum v.cargo else 0)
      (unloadCoords v.x v.y w.width w.height) c hc_mem
    dsimp only at hle
    rw [if_pos htown] at hle
    omega
  have hdem := unloadScan_demandAtZ v.cargo
    (unloadCoords v.x v.y w.width w.height) (w, 0) c ct
  refine ⟨unloadCoords_dup v.x v.y w.width w.height hedge, ?_, ?_⟩
  · simp only [Vehicle.unload_cargo_at_station]
    rw [if_neg hcargo, hr2, if_pos hpos]
    exact hdem
  · simp only [Vehicle.unload_cargo_at_station]
    rw [if_neg hcargo, hr2, if_pos hpos]
    cases onTime <;> simp

/-- A town on the border tile (0,0), demanding 10 of everything. -/
def edgeTown : Town where
  name := "Edgeville"
  population := 100
  growth_rate := 1
  cargo_demand := fun _ => 10
  cargo_supply := fun _ => 0

/-- A 3×3 world with `edgeTown` on its corner tile (0,0). -/
def edgeWorld : World where
  width := 3
  height := 3
  tiles := fun a b =>
    if a = 0 ∧ b = 0 then
      { terrain := .Grass, content := .Town edgeTown, height := 0 }
    else { terrain := .Grass, content := .Empty, height := 0 }
  towns := [(0, 0)]
  industries := []
  stations := []

/-- A ship parked on the corner (0,0) of `edgeWorld`, holding 1 Goods. -/
def edgeVehicle : Vehicle :=
  { Vehicle.new 0 (.Ship (.CargoShip 10)) 0 0 with
      cargo := fun ct => if ct = .Goods then 1 else 0 }

/-- C10 witness: the corner vehicle of `edgeWorld` satisfies every hypothesis,
and the theorem applies; the corner (0,0) occurs 9 times in the scan
(dx,dy ∈ {-2,-1,0} all clamp to 0), so the town's Goods demand drops from 10
to 10 − 9·1 and the profit rises by 9·1·50. -/
theorem unload_edge_duplicate_delivery_witness :
    (edgeVehicle.x < 2 ∨ edgeWorld.width ≤ edgeVehicle.x + 2 ∨
       edgeVehicle.y < 2 ∨ edgeWorld.height ≤ edgeVehicle.y + 2) ∧
    cargoSum edgeVehicle.cargo ≠ 0 ∧
    isTownZ edgeWorld (0, 0) = true ∧
    0 < (unloadCoords edgeVehicle.x edgeVehicle.y edgeWorld.width
      edgeWorld.height).count (0, 0) ∧
    ((∃ c0, 2 ≤ (unloadCoords edgeVehicle.x edgeVehicle.y edgeWorld.width
        edgeWorld.height).count c0) ∧
     demandAtZ (edgeVehicle.unload_cargo_at_station true edgeWorld).2 (0, 0)
         CargoType.Goods =
       (demandAtZ edgeWorld (0, 0) CargoType.Goods).map (fun dd =>
         dd - (unloadCoords edgeVehicle.x edgeVehicle.y edgeWorld.width
           edgeWorld.height).count (0, 0) * edgeVehicle.cargo CargoType.Goods) ∧
     (edgeVehicle.unload_cargo_at_station true edgeWorld).1.profit =
       edgeVehicle.profit +
         (((unloadCoords edgeVehicle.x edgeVehicle.y edgeWorld.width
             edgeWorld.height).map (fun c2 =>
           if isTownZ edgeWorld c2 then cargoSum edgeVehicle.cargo
           else 0)).sum : ℤ) * 50) :=
  ⟨by decide, by decide, by decide, by decide,
   unload_edge_duplicate_delivery true edgeVehicle edgeWorld (0, 0)
     CargoType.Goods (by decide) (by decide) (by decide) (by decide)⟩

end RusTTD
